import Mathlib

/-!
Shallow embedding of `dsrag/dsparse/file_parsing/file_system.py`.

The module defines an abstract `FileSystem` contract with two concrete
backends: `LocalFileSystem` (local directory tree rooted at `base_path`) and
`S3FileSystem` (object store keyed by `{kb_id}/{doc_id}/...`, with a local
mirror directory used for downloads).  We embed the stateful Python code as
pure Lean functions over explicit state values:

* the local disk is a `LocalState`: a list of existing directories and a list
  of (path, content) files, with paths resolved into POSIX components
  (duplicate separators collapse, a trailing separator is ignored);
* an S3 bucket is an `S3State`: a list of (key, content) objects;
* Python exceptions become the `Except PyErr` monad; a Python function that
  falls off the end returns the value `None`, embedded as `Option.none`;
* bytes that the code feeds to `json.load`/`json.loads` are modelled by
  `FileContent`: either a parsed JSON value, or bytes that fail to parse
  (`malformed`, and image bytes `imageC`, which are never valid JSON); the
  `json` module itself is an external collaborator, so serialization is kept
  abstract at this level;
* `boto3` is an external collaborator with standard list/get/put/delete
  semantics, so `list_objects_v2`/`get_object`/`put_object`/`download_file`
  act directly on the `S3State` association list.
-/

namespace DsragFS

/-- Python exceptions that the embedded code can raise or catch. -/
inductive PyErr where
  | fileNotFoundError (path : String)
  | fileExistsError
  | isADirectoryError
  | notADirectoryError
  | dirNotEmptyError
  | jsonDecodeError (msg : String)
  | keyError (k : String)
  | typeError
  | valueError (msg : String)
  | clientError
  deriving DecidableEq

/-- Rendering of an exception used when the code prints `{e}`. -/
def errMsg : PyErr → String
  | .fileNotFoundError p => "FileNotFoundError: " ++ p
  | .fileExistsError => "FileExistsError"
  | .isADirectoryError => "IsADirectoryError"
  | .notADirectoryError => "NotADirectoryError"
  | .dirNotEmptyError => "OSError: directory not empty"
  | .jsonDecodeError m => "JSONDecodeError: " ++ m
  | .keyError k => "KeyError: " ++ k
  | .typeError => "TypeError"
  | .valueError m => "ValueError: " ++ m
  | .clientError => "ClientError"

/-- JSON values (the shapes `json.load` can produce). -/
inductive JsonVal where
  | nullV
  | boolV (b : Bool)
  | numV (n : Int)
  | strV (s : String)
  | arrV (elts : List JsonVal)
  | objV (fields : List (String × JsonVal))

/-- Contents of a stored file or object: bytes that parse as JSON,
bytes that do not parse as JSON, or image bytes (never valid JSON). -/
inductive FileContent where
  | jsonC (v : JsonVal)
  | malformed (bytes : String)
  | imageC (bytes : String)

/-- `json.load` / `json.loads` on stored bytes. -/
def jsonLoad : FileContent → Except PyErr JsonVal
  | .jsonC v => .ok v
  | .malformed s => .error (.jsonDecodeError s)
  | .imageC s => .error (.jsonDecodeError s)

/-- Python `data[k]` on a JSON value: dict lookup, `KeyError` when the key is
missing, `TypeError` when the value is not a dict. -/
def jsonGetItem (v : JsonVal) (k : String) : Except PyErr JsonVal :=
  match v with
  | .objV fields =>
    match fields.lookup k with
    | some x => .ok x
    | none => .error (.keyError k)
  | _ => .error .typeError

/-! ### Python string primitives (character-level, so they evaluate in the kernel) -/

/-- Python `s.startswith(pre)`. -/
def pyStartsWith (s pre : String) : Bool := pre.data.isPrefixOf s.data

/-- Python `s.endswith(suf)`. -/
def pyEndsWith (s suf : String) : Bool := suf.data.isSuffixOf s.data

/-- Python `s.lower()`. -/
def strLower (s : String) : String := String.mk (s.data.map Char.toLower)

/-- Python `s.split(c)` on the underlying characters (always non-empty). -/
def splitChar (c : Char) : List Char → List (List Char)
  | [] => [[]]
  | d :: ds =>
    match splitChar c ds with
    | [] => [[]]
    | r :: rs => if d = c then [] :: r :: rs else (d :: r) :: rs

/-- The digits of a non-negative decimal literal, as accepted by `int()`. -/
def digitsToNatGo (acc : Nat) : List Char → Option Nat
  | [] => some acc
  | c :: cs =>
    if c.isDigit then digitsToNatGo (acc * 10 + (c.toNat - ('0').toNat)) cs else none

/-- Python `int(s)` on a decimal string with an optional sign: `some` value on
a well-formed literal, `none` (i.e. `ValueError`) otherwise. -/
def pyIntOfChars (l : List Char) : Option Int :=
  match l with
  | [] => none
  | '-' :: rest =>
    match rest with
    | [] => none
    | _ => (digitsToNatGo 0 rest).map (fun n => -(n : Int))
  | '+' :: rest =>
    match rest with
    | [] => none
    | _ => (digitsToNatGo 0 rest).map (fun n => (n : Int))
  | _ => (digitsToNatGo 0 l).map (fun n => (n : Int))

/-- The sort key `int(x.split('_')[-1].split('.')[0])` used by
`get_all_jpg_files`, `none` when `int()` would raise `ValueError`. -/
def sortKeyOf (x : String) : Option Int :=
  pyIntOfChars ((splitChar '.' ((splitChar '_' x.data).getLastD [])).headD [])

/-- Total version of the sort key, meaningful once `sortKeyOf` is `some`. -/
def sortKeyD (x : String) : Int := (sortKeyOf x).getD 0

/-- Python `list.sort(key=lambda x: int(...))`: raises `ValueError` when some
key fails to parse, otherwise sorts stably and ascending by the key. -/
def pySortByIntKey (l : List String) : Except PyErr (List String) :=
  if l.all (fun x => (sortKeyOf x).isSome) then
    .ok (l.mergeSort (fun x y => decide (sortKeyD x ≤ sortKeyD y)))
  else .error (.valueError "invalid literal for int() with base 10")

/-! ### Paths -/

/-- `os.path.join` for two segments (POSIX): an absolute right operand wins,
a separator is inserted unless already present, `join(a, "")` is `a ++ "/"`. -/
def pyJoin (a b : String) : String :=
  if pyStartsWith b "/" then b
  else if a = "" then b
  else if pyEndsWith a "/" then a ++ b
  else a ++ "/" ++ b

/-- `os.path.join(a, b, c)`. -/
def pyJoin3 (a b c : String) : String := pyJoin (pyJoin a b) c

/-- `os.path.join(a, b, c, d)`. -/
def pyJoin4 (a b c d : String) : String := pyJoin (pyJoin3 a b c) d

/-- POSIX resolution of a path string into components: split on `/` and drop
empty components (duplicate and trailing separators collapse). -/
def pathComp (p : String) : List String :=
  ((splitChar '/' p.data).map String.mk).filter (fun s => s ≠ "")

/-- `range(a, b)` in Python. -/
def pyRange (a b : Int) : List Int :=
  (List.range (b - a).toNat).map (fun (k : Nat) => a + (k : Int))

/-! ### Local disk state and `os` primitives -/

/-- State of the local disk: the directories that exist and the files that
exist (each with its content), both addressed by resolved path components. -/
structure LocalState where
  dirs : List (List String)
  files : List (List String × FileContent)

/-- Is there a file at these components? -/
def isFileP (st : LocalState) (pc : List String) : Bool :=
  st.files.any (fun kv => decide (kv.1 = pc))

/-- Is there a directory at these components? -/
def isDirP (st : LocalState) (pc : List String) : Bool :=
  st.dirs.any (fun d => decide (d = pc))

/-- `os.path.exists`. -/
def existsP (st : LocalState) (p : String) : Bool :=
  isDirP st (pathComp p) || isFileP st (pathComp p)

/-- Remove a leading run of components, `none` when it is not a prefix. -/
def dropPfxL : List String → List String → Option (List String)
  | [], e => some e
  | _ :: _, [] => none
  | c :: cs, d :: ds => if c = d then dropPfxL cs ds else none

/-- The name of `e` when `e` is an immediate child of `q`. -/
def childNameOf (q e : List String) : Option String :=
  match dropPfxL q e with
  | some [n] => some n
  | _ => none

/-- `os.listdir`'s entries: names of immediate children (files, then
directories) of the directory at `q`. -/
def childNames (st : LocalState) (q : List String) : List String :=
  (st.files.map Prod.fst ++ st.dirs).filterMap (childNameOf q)

/-- `os.listdir`. -/
def listdirE (st : LocalState) (p : String) : Except PyErr (List String) :=
  let pc := pathComp p
  if isDirP st pc then .ok (childNames st pc)
  else if isFileP st pc then .error .notADirectoryError
  else .error (.fileNotFoundError p)

/-- `os.remove`. -/
def osRemove (st : LocalState) (p : String) : Except PyErr LocalState :=
  let pc := pathComp p
  if isFileP st pc then .ok { st with files := st.files.filter (fun kv => kv.1 ≠ pc) }
  else if isDirP st pc then .error .isADirectoryError
  else .error (.fileNotFoundError p)

/-- `os.rmdir`. -/
def osRmdir (st : LocalState) (p : String) : Except PyErr LocalState :=
  let pc := pathComp p
  if isDirP st pc then
    if childNames st pc = [] then .ok { st with dirs := st.dirs.filter (fun d => d ≠ pc) }
    else .error .dirNotEmptyError
  else if isFileP st pc then .error .notADirectoryError
  else .error (.fileNotFoundError p)

/-- All non-empty prefixes of a component list, shortest first. -/
def listAncestors : List String → List (List String)
  | [] => []
  | a :: rest => [a] :: (listAncestors rest).map (fun l => a :: l)

/-- `os.makedirs(p, exist_ok)`: create the directory and any missing
ancestors; an existing directory is an error unless `exist_ok`; an existing
file in the way is always an error. -/
def osMakedirs (st : LocalState) (p : String) (exist_ok : Bool) : Except PyErr LocalState :=
  let pc := pathComp p
  if isFileP st pc then .error .fileExistsError
  else if isDirP st pc then
    if exist_ok then .ok st else .error .fileExistsError
  else if (listAncestors pc).any (fun q => isFileP st q) then .error .notADirectoryError
  else .ok { st with dirs := st.dirs ++ (listAncestors pc).filter (fun q => !(isDirP st q)) }

/-- Content of the file at components `pc`, if any. -/
def findFile (st : LocalState) (pc : List String) : Option FileContent :=
  (st.files.find? (fun kv => decide (kv.1 = pc))).map Prod.snd

/-- `open(p, 'r')` followed by reading: the file's bytes. -/
def openRead (st : LocalState) (p : String) : Except PyErr FileContent :=
  let pc := pathComp p
  match findFile st pc with
  | some c => .ok c
  | none =>
    if isDirP st pc then .error .isADirectoryError else .error (.fileNotFoundError p)

/-- Replace the content of an existing file, or append a new file. -/
def setFile (st : LocalState) (pc : List String) (c : FileContent) : LocalState :=
  if isFileP st pc then
    { st with files := st.files.map (fun kv => if kv.1 = pc then (pc, c) else kv) }
  else { st with files := st.files ++ [(pc, c)] }

/-- `open(p, 'w')` followed by writing `c`: requires the parent directory to
exist; writing over a directory is an error. -/
def openWrite (st : LocalState) (p : String) (c : FileContent) : Except PyErr LocalState :=
  let pc := pathComp p
  if isDirP st pc then .error .isADirectoryError
  else if pc = [] then .error (.fileNotFoundError p)
  else if isDirP st pc.dropLast then .ok (setFile st pc c)
  else if isFileP st pc.dropLast then .error .notADirectoryError
  else .error (.fileNotFoundError p)

/-! ### Shared page-file naming -/

/-- The extension preference order tried by `get_files`. -/
def extsOrder : List String := [".jpg", ".jpeg", ".png"]

/-- `f"page_{i}{ext}"`. -/
def pageName (i : Int) (ext : String) : String := "page_" ++ toString i ++ ext

/-- `f"page_content_{n}.json"`. -/
def pageContentName (n : Int) : String := "page_content_" ++ toString n ++ ".json"

/-- The page-content JSON written by `save_page_content`. -/
def pageContentJson (content : String) : FileContent :=
  .jsonC (.objV [("content", .strV content)])

/-! ### `LocalFileSystem` -/

namespace LocalFileSystem

/-- The `for file in os.listdir(...): os.remove(os.path.join(...))` loop of
`delete_directory`. -/
def remove_files_loop (dirPath : String) :
    LocalState → List String → Except PyErr LocalState
  | st, [] => .ok st
  | st, n :: ns =>
    match osRemove st (pyJoin dirPath n) with
    | .error e => .error e
    | .ok st2 => remove_files_loop dirPath st2 ns

/-- `LocalFileSystem.delete_directory`: if the document path exists and is a
directory, remove each listed entry then remove the directory.  The Python
function returns `None`, embedded as `Option.none : Option (List String)`. -/
def delete_directory (st : LocalState) (base_path kb_id doc_id : String) :
    Except PyErr (LocalState × Option (List String)) :=
  let page_images_path := pyJoin3 base_path kb_id doc_id
  if existsP st page_images_path && isDirP st (pathComp page_images_path) then
    match remove_files_loop page_images_path st (childNames st (pathComp page_images_path)) with
    | .error e => .error e
    | .ok st1 =>
      match osRmdir st1 page_images_path with
      | .error e => .error e
      | .ok st2 => .ok (st2, none)
  else .ok (st, none)

/-- The `for doc_id in os.listdir(kb_path): self.delete_directory(...)` loop
of `delete_kb`. -/
def delete_docs_loop (base_path kb_id : String) :
    LocalState → List String → Except PyErr LocalState
  | st, [] => .ok st
  | st, d :: ds =>
    match delete_directory st base_path kb_id d with
    | .error e => .error e
    | .ok r => delete_docs_loop base_path kb_id r.1 ds

/-- `LocalFileSystem.delete_kb`: if the knowledge-base path exists, call
`delete_directory` for every entry of the knowledge-base directory, then
`delete_directory(kb_id, "")`. -/
def delete_kb (st : LocalState) (base_path kb_id : String) : Except PyErr LocalState :=
  let kb_path := pyJoin base_path kb_id
  if existsP st kb_path then
    match listdirE st kb_path with
    | .error e => .error e
    | .ok docs =>
      match delete_docs_loop base_path kb_id st docs with
      | .error e => .error e
      | .ok st1 =>
        match delete_directory st1 base_path kb_id "" with
        | .error e => .error e
        | .ok r => .ok r.1
  else .ok st

/-- The inner `for ext in ['.jpg', '.jpeg', '.png']` loop of `get_files`:
the first existing candidate path, if any (`break` on the first hit). -/
def try_exts (st : LocalState) (dirPath : String) (i : Int) : Option String :=
  extsOrder.findSome? (fun ext =>
    let image_file_path := pyJoin dirPath (pageName i ext)
    if existsP st image_file_path then some image_file_path else none)

/-- `LocalFileSystem.get_files`: empty when either bound is `None`, else for
each page in `range(page_start, page_end + 1)` append the first existing
candidate path, skipping pages with no match. -/
def get_files (st : LocalState) (base_path kb_id doc_id : String)
    (page_start page_end : Option Int) : List String :=
  match page_start, page_end with
  | some a, some b =>
    (pyRange a (b + 1)).filterMap (try_exts st (pyJoin3 base_path kb_id doc_id))
  | _, _ => []

/-- Is this entry name an image file name (`.jpg`/`.jpeg`/`.png`)? -/
def isImageName (f : String) : Bool :=
  pyEndsWith f ".jpg" || pyEndsWith f ".jpeg" || pyEndsWith f ".png"

/-- `LocalFileSystem.get_all_jpg_files`: list the document directory (raising
if it is missing), keep image entries, and sort the full paths by
`int(x.split('_')[-1].split('.')[0])`. -/
def get_all_jpg_files (st : LocalState) (base_path kb_id doc_id : String) :
    Except PyErr (List String) :=
  let page_images_path := pyJoin3 base_path kb_id doc_id
  match listdirE st page_images_path with
  | .error e => .error e
  | .ok entries =>
    pySortByIntKey ((entries.filter isImageName).map (fun f => pyJoin page_images_path f))

/-- `LocalFileSystem.save_page_content`: write
`{"content": content}` to `page_content_{n}.json` in the document directory. -/
def save_page_content (st : LocalState) (base_path kb_id doc_id : String)
    (page_number : Int) (content : String) : Except PyErr LocalState :=
  openWrite st (pyJoin4 base_path kb_id doc_id (pageContentName page_number))
    (pageContentJson content)

/-- `LocalFileSystem.load_page_content`: read and parse
`page_content_{n}.json` and return `data["content"]`; only
`FileNotFoundError` is caught (returning `None`), every other exception
(including a JSON decode failure) propagates. -/
def load_page_content (st : LocalState) (base_path kb_id doc_id : String)
    (page_number : Int) : Except PyErr (Option JsonVal) :=
  match openRead st (pyJoin4 base_path kb_id doc_id (pageContentName page_number)) with
  | .error (.fileNotFoundError _) => .ok none
  | .error e => .error e
  | .ok c =>
    match jsonLoad c with
    | .error e => .error e
    | .ok v =>
      match jsonGetItem v "content" with
      | .error e => .error e
      | .ok x => .ok (some x)

/-- The page loop of `load_page_content_range`: keep the contents that are
not `None`. -/
def load_range_loop (st : LocalState) (base_path kb_id doc_id : String) :
    List Int → Except PyErr (List JsonVal)
  | [] => .ok []
  | i :: rest =>
    match load_page_content st base_path kb_id doc_id i with
    | .error e => .error e
    | .ok c =>
      match load_range_loop st base_path kb_id doc_id rest with
      | .error e => .error e
      | .ok r =>
        match c with
        | some s => .ok (s :: r)
        | none => .ok r

/-- `LocalFileSystem.load_page_content_range`. -/
def load_page_content_range (st : LocalState) (base_path kb_id doc_id : String)
    (page_start page_end : Int) : Except PyErr (List JsonVal) :=
  load_range_loop st base_path kb_id doc_id (pyRange page_start (page_end + 1))

/-- `LocalFileSystem.load_data`: read and parse `{data_name}.json`; a missing
file or a JSON decode failure prints a diagnostic and returns `None`.  The
result pairs the returned value with the printed diagnostics. -/
def load_data (st : LocalState) (base_path kb_id doc_id data_name : String) :
    Except PyErr (Option JsonVal × List String) :=
  let file_path := pyJoin4 base_path kb_id doc_id (data_name ++ ".json")
  match openRead st file_path with
  | .error (.fileNotFoundError _) => .ok (none, ["File not found: " ++ file_path])
  | .error e => .error e
  | .ok c =>
    match jsonLoad c with
    | .error (.jsonDecodeError m) =>
      .ok (none, ["Error decoding JSON from " ++ file_path ++ ": " ++ m])
    | .error e => .error e
    | .ok v => .ok (some v, [])

end LocalFileSystem

/-! ### `S3FileSystem` -/

/-- State of the S3 bucket: the stored objects, keyed by object key. -/
abbrev S3State := List (String × FileContent)

/-- `get_object`: the object's bytes, if the key exists. -/
def bucketGet (s3 : S3State) (key : String) : Option FileContent :=
  (s3.find? (fun kv => decide (kv.1 = key))).map Prod.snd

/-- `put_object`: overwrite or append. -/
def bucketPut (s3 : S3State) (key : String) (c : FileContent) : S3State :=
  if s3.any (fun kv => decide (kv.1 = key)) then
    s3.map (fun kv => if kv.1 = key then (key, c) else kv)
  else s3 ++ [(key, c)]

/-- `list_objects_v2(Prefix=pfx)`: the keys under the given key prefix. -/
def listKeysWithPfx (s3 : S3State) (pfx : String) : List String :=
  (s3.filter (fun kv => pyStartsWith kv.1 pfx)).map Prod.fst

namespace S3FileSystem

/-- `S3FileSystem.delete_directory`: list the keys under
`{kb_id}/{doc_id}/`, bulk-delete them when there are any, and return the
removed keys (the `{'Key': ...}` identifiers). -/
def delete_directory (s3 : S3State) (kb_id doc_id : String) : S3State × List String :=
  let pfx := kb_id ++ "/" ++ doc_id ++ "/"
  let objects_to_delete := listKeysWithPfx s3 pfx
  if objects_to_delete = [] then (s3, [])
  else (s3.filter (fun kv => !(pyStartsWith kv.1 pfx)), objects_to_delete)

/-- `S3FileSystem.delete_kb`: same bulk delete under `{kb_id}/`. -/
def delete_kb (s3 : S3State) (kb_id : String) : S3State × List String :=
  let pfx := kb_id ++ "/"
  let objects_to_delete := listKeysWithPfx s3 pfx
  if objects_to_delete = [] then (s3, [])
  else (s3.filter (fun kv => !(pyStartsWith kv.1 pfx)), objects_to_delete)

/-- `download_file`: fetch the object and write it to the local path
(failing like `boto3` when the key is missing or the local write fails). -/
def download_file (s3 : S3State) (st : LocalState) (key path : String) :
    Except PyErr LocalState :=
  match bucketGet s3 key with
  | some c => openWrite st path c
  | none => .error .clientError

/-- The inner `for ext in ['.jpg', '.jpeg', '.png']` loop of the S3
`get_files`: ensure the mirror directory exists (swallowing
`FileExistsError` from the creation race), try to download the page under
each extension, `break` on the first success, `continue` on failure. -/
def try_exts_download (s3 : S3State) (base_path kb_id doc_id : String) (i : Int) :
    LocalState → List String → Except PyErr (LocalState × Option String)
  | st, [] => .ok (st, none)
  | st, ext :: rest =>
    let filename := kb_id ++ "/" ++ doc_id ++ "/" ++ pageName i ext
    let output_folder := pyJoin3 base_path kb_id doc_id
    let st1E : Except PyErr LocalState :=
      if existsP st output_folder then .ok st
      else
        match osMakedirs st output_folder false with
        | .ok st' => .ok st'
        | .error .fileExistsError => .ok st
        | .error e => .error e
    match st1E with
    | .error e => .error e
    | .ok st1 =>
      let output_filepath := pyJoin base_path filename
      match download_file s3 st1 filename output_filepath with
      | .ok st2 => .ok (st2, some output_filepath)
      | .error _ => try_exts_download s3 base_path kb_id doc_id i st1 rest

/-- The page loop of the S3 `get_files`. -/
def get_files_loop (s3 : S3State) (base_path kb_id doc_id : String) :
    LocalState → List Int → Except PyErr (LocalState × List String)
  | st, [] => .ok (st, [])
  | st, i :: rest =>
    match try_exts_download s3 base_path kb_id doc_id i st extsOrder with
    | .error e => .error e
    | .ok r1 =>
      match get_files_loop s3 base_path kb_id doc_id r1.1 rest with
      | .error e => .error e
      | .ok r2 =>
        match r1.2 with
        | some p => .ok (r2.1, p :: r2.2)
        | none => .ok (r2.1, r2.2)

/-- `S3FileSystem.get_files`: empty when either bound is `None`, else
download each found page image into the local mirror and return the local
paths. -/
def get_files (s3 : S3State) (st : LocalState) (base_path kb_id doc_id : String)
    (page_start page_end : Option Int) : Except PyErr (LocalState × List String) :=
  match page_start, page_end with
  | some a, some b => get_files_loop s3 base_path kb_id doc_id st (pyRange a (b + 1))
  | _, _ => .ok (st, [])

/-- Is this key an image key (`.jpg`/`.jpeg`/`.png`, case-insensitive)? -/
def isImageKey (k : String) : Bool :=
  pyEndsWith (strLower k) ".jpg" || pyEndsWith (strLower k) ".jpeg" ||
    pyEndsWith (strLower k) ".png"

/-- The download loop of the S3 `get_all_jpg_files`: download each key,
skipping (with a printed diagnostic) any key whose download fails. -/
def download_all_loop (s3 : S3State) (base_path : String) :
    LocalState → List String → LocalState × List String
  | st, [] => (st, [])
  | st, k :: ks =>
    let local_path := pyJoin base_path k
    match download_file s3 st k local_path with
    | .ok st1 =>
      let r := download_all_loop s3 base_path st1 ks
      (r.1, local_path :: r.2)
    | .error _ => download_all_loop s3 base_path st ks

/-- `S3FileSystem.get_all_jpg_files`: list the keys under
`{kb_id}/{doc_id}/`, keep image keys, ensure the mirror directory, download
each, and sort the local paths by page number; any exception inside the
body is caught and yields `[]`. -/
def get_all_jpg_files (s3 : S3State) (st : LocalState) (base_path kb_id doc_id : String) :
    LocalState × List String :=
  let pfx := kb_id ++ "/" ++ doc_id ++ "/"
  let contents := listKeysWithPfx s3 pfx
  if contents = [] then (st, [])
  else
    let jpg_files := contents.filter isImageKey
    let output_folder := pyJoin3 base_path kb_id doc_id
    match osMakedirs st output_folder true with
    | .error _ => (st, [])
    | .ok st1 =>
      let r := download_all_loop s3 base_path st1 jpg_files
      match pySortByIntKey r.2 with
      | .ok sorted_paths => (r.1, sorted_paths)
      | .error _ => (r.1, [])

/-- `S3FileSystem.save_page_content`: upload `{"content": content}` at
`{kb_id}/{doc_id}/page_content_{n}.json`. -/
def save_page_content (s3 : S3State) (kb_id doc_id : String) (page_number : Int)
    (content : String) : S3State :=
  bucketPut s3 (kb_id ++ "/" ++ doc_id ++ "/" ++ pageContentName page_number)
    (pageContentJson content)

/-- `S3FileSystem.load_page_content`: fetch and parse the page-content
object; `NoSuchKey` returns `None` silently, any other exception prints a
diagnostic and returns `None`.  The result pairs the returned value with the
printed diagnostics. -/
def load_page_content (s3 : S3State) (kb_id doc_id : String) (page_number : Int) :
    Option JsonVal × List String :=
  let file_name := kb_id ++ "/" ++ doc_id ++ "/" ++ pageContentName page_number
  match bucketGet s3 file_name with
  | none => (none, [])
  | some c =>
    match jsonLoad c with
    | .error e => (none, ["Error loading page content from S3: " ++ errMsg e])
    | .ok v =>
      match jsonGetItem v "content" with
      | .ok x => (some x, [])
      | .error e => (none, ["Error loading page content from S3: " ++ errMsg e])

/-- The page loop of the S3 `load_page_content_range`. -/
def load_range_loop (s3 : S3State) (kb_id doc_id : String) : List Int → List JsonVal
  | [] => []
  | i :: rest =>
    match (load_page_content s3 kb_id doc_id i).1 with
    | some s => s :: load_range_loop s3 kb_id doc_id rest
    | none => load_range_loop s3 kb_id doc_id rest

/-- `S3FileSystem.load_page_content_range`. -/
def load_page_content_range (s3 : S3State) (kb_id doc_id : String)
    (page_start page_end : Int) : List JsonVal :=
  load_range_loop s3 kb_id doc_id (pyRange page_start (page_end + 1))

/-- `S3FileSystem.load_data`: fetch and parse `{data_name}.json`;
`NoSuchKey` and a JSON decode failure each print a diagnostic and return
`None`, as does any other exception.  The result pairs the returned value
with the printed diagnostics. -/
def load_data (s3 : S3State) (kb_id doc_id data_name : String) :
    Option JsonVal × List String :=
  let s3_key := kb_id ++ "/" ++ doc_id ++ "/" ++ data_name ++ ".json"
  match bucketGet s3 s3_key with
  | none => (none, ["File not found in S3: " ++ s3_key])
  | some c =>
    match jsonLoad c with
    | .ok v => (some v, [])
    | .error (.jsonDecodeError m) =>
      (none, ["Error decoding JSON from S3 file " ++ s3_key ++ ": " ++ m])
    | .error e => (none, ["Error loading data from S3: " ++ errMsg e])

end S3FileSystem

/-! ### Backend descriptors (`to_dict` / `from_dict` and the subclass registry) -/

/-- A Python value appearing in a backend descriptor: a string or `None`. -/
inductive PyVal where
  | str (s : String)
  | noneV
  deriving DecidableEq

/-- A backend descriptor: a flat key-value structure (a Python dict). -/
abbrev Config := List (String × PyVal)

/-- Dict lookup. -/
def cfgGet (cfg : Config) (k : String) : Option PyVal :=
  (cfg.find? (fun kv => decide (kv.1 = k))).map Prod.snd

/-- Dict key removal (`pop`). -/
def cfgRemove (cfg : Config) (k : String) : Config :=
  cfg.filter (fun kv => kv.1 ≠ k)

/-- A constructed backend instance: the concrete subclass together with the
constructor arguments it stored on `self`. -/
inductive Backend where
  | localFS (base_path : PyVal)
  | s3FS (base_path bucket_name region_name access_key secret_key
      error_table dynamodb_table_name dynamodb_client_data_table_name : PyVal)
  deriving DecidableEq

/-- The subclass registry populated by `__init_subclass__`: the two concrete
backends defined in the module. -/
def registeredSubclasses : List String := ["LocalFileSystem", "S3FileSystem"]

/-- `to_dict` (the base version, overridden by `S3FileSystem`). -/
def to_dict : Backend → Config
  | .localFS bp => [("subclass_name", .str "LocalFileSystem"), ("base_path", bp)]
  | .s3FS bp bu rg ak sk et _ _ =>
    [("subclass_name", .str "S3FileSystem"), ("base_path", bp), ("bucket_name", bu),
     ("region_name", rg), ("access_key", ak), ("secret_key", sk), ("error_table", et)]

/-- Keyword arguments accepted by `LocalFileSystem.__init__`. -/
def localAllowedKeys : List String := ["base_path"]

/-- `LocalFileSystem(**cfg)`: `TypeError` on an unexpected or missing
keyword argument. -/
def localFromKwargs (cfg : Config) : Except PyErr Backend :=
  if cfg.any (fun kv => !(localAllowedKeys.contains kv.1)) then .error .typeError
  else
    match cfgGet cfg "base_path" with
    | some v => .ok (.localFS v)
    | none => .error .typeError

/-- Keyword arguments accepted by `S3FileSystem.__init__`. -/
def s3AllowedKeys : List String :=
  ["base_path", "bucket_name", "region_name", "access_key", "secret_key",
   "error_table", "dynamodb_table_name", "dynamodb_client_data_table_name"]

/-- `S3FileSystem(**cfg)`: the five required arguments plus three keyword
arguments defaulting to `None`; `TypeError` on an unexpected or missing
keyword argument. -/
def s3FromKwargs (cfg : Config) : Except PyErr Backend :=
  if cfg.any (fun kv => !(s3AllowedKeys.contains kv.1)) then .error .typeError
  else
    match cfgGet cfg "base_path", cfgGet cfg "bucket_name", cfgGet cfg "region_name",
      cfgGet cfg "access_key", cfgGet cfg "secret_key" with
    | some bp, some bu, some rg, some ak, some sk =>
      .ok (.s3FS bp bu rg ak sk ((cfgGet cfg "error_table").getD .noneV)
        ((cfgGet cfg "dynamodb_table_name").getD .noneV)
        ((cfgGet cfg "dynamodb_client_data_table_name").getD .noneV))
    | _, _, _, _, _ => .error .typeError

/-- `FileSystem.from_dict`: pop `subclass_name`, look it up in the registry,
and construct the named subclass from the remaining fields; an unknown (or
absent) name raises `ValueError(f"Unknown subclass: {subclass_name}")`. -/
def from_dict (config : Config) : Except PyErr Backend :=
  let subclass_name := cfgGet config "subclass_name"
  let remaining := cfgRemove config "subclass_name"
  match subclass_name with
  | some (.str n) =>
    if n = "LocalFileSystem" then localFromKwargs remaining
    else if n = "S3FileSystem" then s3FromKwargs remaining
    else .error (.valueError ("Unknown subclass: " ++ n))
  | _ => .error (.valueError "Unknown subclass: None")

/-! ### Specification-side reformulations used by the claim theorems -/

/-- `pathComp` through the underlying characters. -/
def compD (l : List Char) : List String :=
  ((splitChar '/' l).map String.mk).filter (fun s => s ≠ "")

/-- Does some page image (any of the three extensions) exist on disk? -/
def hasPageImage (st : LocalState) (dirPath : String) (i : Int) : Bool :=
  extsOrder.any (fun ext => existsP st (pyJoin dirPath (pageName i ext)))

/-- The path `get_files` must pick for a found page: the `.jpg` candidate if
it exists, else the `.jpeg` candidate if it exists, else the `.png`
candidate (extension preference order spelled out). -/
def chosenPagePath (st : LocalState) (dirPath : String) (i : Int) : String :=
  if existsP st (pyJoin dirPath (pageName i ".jpg")) then pyJoin dirPath (pageName i ".jpg")
  else if existsP st (pyJoin dirPath (pageName i ".jpeg")) then
    pyJoin dirPath (pageName i ".jpeg")
  else pyJoin dirPath (pageName i ".png")

/-- The object key `{kb_id}/{doc_id}/page_{i}{ext}`. -/
def s3PageKey (kb doc : String) (i : Int) (ext : String) : String :=
  kb ++ "/" ++ doc ++ "/" ++ pageName i ext

/-- Does some page image exist in the bucket? -/
def s3HasPageImage (s3 : S3State) (kb doc : String) (i : Int) : Bool :=
  extsOrder.any (fun ext => (bucketGet s3 (s3PageKey kb doc i ext)).isSome)

/-- The local path the S3 `get_files` must pick for a found page. -/
def s3ChosenPagePath (s3 : S3State) (bp kb doc : String) (i : Int) : String :=
  if (bucketGet s3 (s3PageKey kb doc i ".jpg")).isSome then
    pyJoin bp (s3PageKey kb doc i ".jpg")
  else if (bucketGet s3 (s3PageKey kb doc i ".jpeg")).isSome then
    pyJoin bp (s3PageKey kb doc i ".jpeg")
  else pyJoin bp (s3PageKey kb doc i ".png")

/-- The spec's "iterating `deleteDirectory` over all contained documents"
for the local backend (in the source a failed step would abort with the
exception; the fold keeps the pre-step state in that case, which the C9
hypotheses rule out). -/
def iterDeleteDocs (st : LocalState) (bp kb : String) (docs : List String) : LocalState :=
  docs.foldl (fun s d =>
    match LocalFileSystem.delete_directory s bp kb d with
    | .ok r => r.1
    | .error _ => s) st

/-- The spec's "iterating `deleteDirectory` over all contained documents"
for the S3 backend. -/
def iterDeleteDirsS3 (s3 : S3State) (kb : String) (docs : List String) : S3State :=
  docs.foldl (fun b d => (S3FileSystem.delete_directory b kb d).1) s3

/-! ## Helper lemmas -/

theorem isDirP_iff (st : LocalState) (pc : List String) :
    isDirP st pc = true ↔ pc ∈ st.dirs := by
  unfold isDirP
  rw [List.any_eq_true]
  constructor
  · rintro ⟨d, hd, he⟩
    rw [← of_decide_eq_true he]
    exact hd
  · intro hd
    exact ⟨pc, hd, by simp⟩

theorem isFileP_iff (st : LocalState) (pc : List String) :
    isFileP st pc = true ↔ ∃ kv ∈ st.files, kv.1 = pc := by
  unfold isFileP
  rw [List.any_eq_true]
  constructor
  · rintro ⟨kv, hkv, he⟩
    exact ⟨kv, hkv, of_decide_eq_true he⟩
  · rintro ⟨kv, hkv, he⟩
    exact ⟨kv, hkv, decide_eq_true he⟩

theorem isFileP_false_iff (st : LocalState) (pc : List String) :
    isFileP st pc = false ↔ ∀ kv ∈ st.files, kv.1 ≠ pc := by
  constructor
  · intro h kv hkv hc
    have ht : isFileP st pc = true := (isFileP_iff st pc).mpr ⟨kv, hkv, hc⟩
    rw [h] at ht
    cases ht
  · intro h
    cases hb : isFileP st pc
    · rfl
    · obtain ⟨kv, hkv, he⟩ := (isFileP_iff st pc).mp hb
      exact absurd he (h kv hkv)

theorem findFile_eq_none (st : LocalState) (pc : List String)
    (h : isFileP st pc = false) : findFile st pc = none := by
  rw [isFileP_false_iff] at h
  have hf : st.files.find? (fun kv => decide (kv.1 = pc)) = none := by
    rw [List.find?_eq_none]
    intro kv hkv
    simp [h kv hkv]
  simp [findFile, hf]

theorem splitChar_ne_nil (c : Char) (l : List Char) : splitChar c l ≠ [] := by
  cases l with
  | nil => simp [splitChar]
  | cons d ds =>
    cases h : splitChar c ds with
    | nil => simp [splitChar, h]
    | cons r rs =>
      by_cases hd : d = c <;> simp [splitChar, h, hd]

theorem splitChar_append (c : Char) (x y : List Char) :
    splitChar c (x ++ c :: y) = splitChar c x ++ splitChar c y := by
  induction x with
  | nil =>
    cases h : splitChar c y with
    | nil => exact absurd h (splitChar_ne_nil c y)
    | cons r rs => simp [splitChar, h]
  | cons d ds ih =>
    cases h : splitChar c ds with
    | nil => exact absurd h (splitChar_ne_nil c ds)
    | cons r rs =>
      cases h2 : splitChar c (ds ++ c :: y) with
      | nil => exact absurd h2 (splitChar_ne_nil c (ds ++ c :: y))
      | cons r2 rs2 =>
        have h3 : (r2 :: rs2 : List (List Char)) = r :: (rs ++ splitChar c y) := by
          rw [← h2, ih, h]
          simp
        injection h3 with e1 e2
        subst e1
        subst e2
        by_cases hd : d = c <;>
          simp [List.cons_append, splitChar, h, h2, hd]

theorem splitChar_no_sep (c : Char) (l : List Char) (h : c ∉ l) :
    splitChar c l = [l] := by
  induction l with
  | nil => rfl
  | cons d ds ih =>
    simp only [List.mem_cons, not_or] at h
    simp [splitChar, ih h.2, Ne.symm h.1]

theorem pathComp_eq_compD (p : String) : pathComp p = compD p.data := rfl

theorem compD_append_sep (x y : List Char) :
    compD (x ++ '/' :: y) = compD x ++ compD y := by
  simp [compD, splitChar_append, List.filter_append]

theorem compD_nil : compD [] = [] := rfl

theorem compD_append_slash (x : List Char) : compD (x ++ ['/']) = compD x := by
  calc compD (x ++ ['/']) = compD x ++ compD [] := compD_append_sep x []
    _ = compD x := by rw [compD_nil, List.append_nil]

theorem compD_single (l : List Char) (h : '/' ∉ l) (h2 : l ≠ []) :
    compD l = [String.mk l] := by
  have : String.mk l ≠ "" := by
    intro hc
    apply h2
    have := congrArg String.data hc
    simpa using this
  simp [compD, splitChar_no_sep _ _ h, this]

theorem pyStartsWith_slash_false (n : String) (h : '/' ∉ n.data) :
    pyStartsWith n "/" = false := by
  show (("/" : String).data.isPrefixOf n.data) = false
  have hd : ("/" : String).data = ['/'] := rfl
  rw [hd]
  cases hn : n.data with
  | nil => rfl
  | cons c cs =>
    rw [hn] at h
    simp only [List.mem_cons, not_or] at h
    have hb : ('/' == c) = false := beq_eq_false_iff_ne.mpr h.1
    simp [List.isPrefixOf, hb]

theorem pathComp_pyJoin (a b : String) (hb : pyStartsWith b "/" = false) :
    pathComp (pyJoin a b) = pathComp a ++ pathComp b := by
  unfold pyJoin
  rw [hb]
  simp only [Bool.false_eq_true, if_false]
  by_cases ha : a = ""
  · rw [if_pos ha, ha]
    rfl
  · rw [if_neg ha]
    by_cases hs : pyEndsWith a "/" = true
    · rw [if_pos hs]
      have hsuf : ("/" : String).data <:+ a.data := by
        rw [← List.isSuffixOf_iff_suffix]
        exact hs
      rcases hsuf with ⟨x, hx⟩
      have hx' : a.data = x ++ ['/'] := hx.symm
      rw [pathComp_eq_compD, pathComp_eq_compD, pathComp_eq_compD, String.data_append, hx']
      rw [List.append_assoc]
      simp only [List.singleton_append]
      rw [compD_append_sep, compD_append_slash]
    · rw [if_neg hs]
      rw [pathComp_eq_compD, pathComp_eq_compD, pathComp_eq_compD,
        String.data_append, String.data_append]
      have hd : ("/" : String).data = ['/'] := rfl
      rw [hd, List.append_assoc]
      simpa using compD_append_sep a.data b.data

theorem pathComp_pyJoin_single (a n : String) (h : '/' ∉ n.data) (h2 : n ≠ "") :
    pathComp (pyJoin a n) = pathComp a ++ [n] := by
  rw [pathComp_pyJoin a n (pyStartsWith_slash_false n h)]
  congr 1
  have h2' : n.data ≠ [] := by
    intro hc
    exact h2 (by have := congrArg String.mk hc; simpa using this)
  rw [pathComp_eq_compD, compD_single n.data h h2']

theorem pathComp_pyJoin_empty (a : String) : pathComp (pyJoin a "") = pathComp a := by
  have hb : pyStartsWith "" "/" = false := rfl
  rw [pathComp_pyJoin a "" hb]
  simp [pathComp_eq_compD, compD, splitChar]

theorem dropPfxL_eq_some_iff (q e r : List String) :
    dropPfxL q e = some r ↔ e = q ++ r := by
  induction q generalizing e with
  | nil => simp [dropPfxL]
  | cons c cs ih =>
    cases e with
    | nil => simp [dropPfxL]
    | cons d ds =>
      by_cases h : c = d
      · subst h
        simp [dropPfxL, ih]
      · simp [dropPfxL, Ne.symm h, h]

theorem childNameOf_eq_some_iff (q e : List String) (n : String) :
    childNameOf q e = some n ↔ e = q ++ [n] := by
  unfold childNameOf
  cases h : dropPfxL q e with
  | none =>
    constructor
    · intro hc
      cases hc
    · intro hc
      have hs : dropPfxL q e = some [n] := (dropPfxL_eq_some_iff q e [n]).mpr hc
      rw [h] at hs
      cases hs
  | some r =>
    have he : e = q ++ r := (dropPfxL_eq_some_iff q e r).mp h
    subst he
    rcases r with _ | ⟨m, rest⟩
    · simp
    · rcases rest with _ | ⟨m2, rest2⟩
      · simp
      · simp

theorem childNameOf_self_append (q : List String) (n : String) :
    childNameOf q (q ++ [n]) = some n :=
  (childNameOf_eq_some_iff q (q ++ [n]) n).mpr rfl

/-- `filterMap` of a guarded function is `filter` then `map`. -/
theorem filterMap_ite {α β : Type} (p : α → Bool) (g : α → β) (l : List α) :
    l.filterMap (fun a => if p a then some (g a) else none) = (l.filter p).map g := by
  induction l with
  | nil => rfl
  | cons a as ih =>
    by_cases h : p a
    · simp [List.filterMap_cons, List.filter_cons, h, ih]
    · simp [List.filterMap_cons, List.filter_cons, h, ih]

/-- Folding a family of filters is one filter with the conjunction. -/
theorem foldl_filter_all {α β : Type} (g : α → β → Bool) (ds : List α) (l : List β) :
    ds.foldl (fun acc d => acc.filter (g d)) l = l.filter (fun b => ds.all (fun d => g d b)) := by
  induction ds generalizing l with
  | nil => simp
  | cons d rest ih =>
    simp only [List.foldl_cons, ih, List.filter_filter]
    apply List.filter_congr
    intro b _
    simp [Bool.and_comm]

theorem pyStartsWith_of_append (s a b : String)
    (h : pyStartsWith s (a ++ b) = true) : pyStartsWith s a = true := by
  unfold pyStartsWith at h ⊢
  rw [List.isPrefixOf_iff_prefix] at h ⊢
  exact List.IsPrefix.trans (by rw [String.data_append]; exact List.prefix_append _ _) h

theorem listKeysWithPfx_eq_nil_iff (s3 : S3State) (pfx : String) :
    listKeysWithPfx s3 pfx = [] ↔ ∀ kv ∈ s3, pyStartsWith kv.1 pfx = false := by
  unfold listKeysWithPfx
  rw [List.map_eq_nil_iff, List.filter_eq_nil_iff]
  constructor
  · intro h kv hkv
    have := h kv hkv
    simpa using this
  · intro h kv hkv
    simp [h kv hkv]

theorem s3_delete_directory_fst (s3 : S3State) (kb doc : String) :
    (S3FileSystem.delete_directory s3 kb doc).1 =
      s3.filter (fun kv => !(pyStartsWith kv.1 (kb ++ "/" ++ doc ++ "/"))) := by
  unfold S3FileSystem.delete_directory
  by_cases h : listKeysWithPfx s3 (kb ++ "/" ++ doc ++ "/") = []
  · rw [if_pos h]
    rw [listKeysWithPfx_eq_nil_iff] at h
    have : ∀ kv ∈ s3, (!(pyStartsWith kv.1 (kb ++ "/" ++ doc ++ "/"))) = true := by
      intro kv hkv
      simp [h kv hkv]
    exact (List.filter_eq_self.mpr this).symm
  · rw [if_neg h]

theorem s3_delete_kb_fst (s3 : S3State) (kb : String) :
    (S3FileSystem.delete_kb s3 kb).1 =
      s3.filter (fun kv => !(pyStartsWith kv.1 (kb ++ "/"))) := by
  unfold S3FileSystem.delete_kb
  by_cases h : listKeysWithPfx s3 (kb ++ "/") = []
  · rw [if_pos h]
    rw [listKeysWithPfx_eq_nil_iff] at h
    have : ∀ kv ∈ s3, (!(pyStartsWith kv.1 (kb ++ "/"))) = true := by
      intro kv hkv
      simp [h kv hkv]
    exact (List.filter_eq_self.mpr this).symm
  · rw [if_neg h]

theorem find?_map_replace (s3 : S3State) (key : String) (c : FileContent)
    (h : s3.any (fun kv => decide (kv.1 = key)) = true) :
    ((s3.map (fun kv => if kv.1 = key then (key, c) else kv)).find?
      (fun kv => decide (kv.1 = key))) = some (key, c) := by
  induction s3 with
  | nil => cases h
  | cons kv rest ih =>
    by_cases hk : kv.1 = key
    · rw [List.map_cons, if_pos hk]
      exact List.find?_cons_of_pos _ (by simp)
    · have h' : rest.any (fun kv => decide (kv.1 = key)) = true := by
        simpa [List.any_cons, hk] using h
      rw [List.map_cons, if_neg hk]
      rw [List.find?_cons_of_neg _ (by simp [hk])]
      exact ih h'

theorem bucketGet_bucketPut_self (s3 : S3State) (key : String) (c : FileContent) :
    bucketGet (bucketPut s3 key c) key = some c := by
  unfold bucketPut
  by_cases h : s3.any (fun kv => decide (kv.1 = key)) = true
  · rw [if_pos h]
    unfold bucketGet
    rw [find?_map_replace s3 key c h]
    rfl
  · rw [if_neg h]
    unfold bucketGet
    have hn : s3.find? (fun kv => decide (kv.1 = key)) = none := by
      rw [List.find?_eq_none]
      intro kv hkv hc
      exact h (List.any_eq_true.mpr ⟨kv, hkv, hc⟩)
    rw [List.find?_append, hn]
    simp

theorem bucketGet_isSome_of_mem (s3 : S3State) (k : String)
    (h : ∃ kv ∈ s3, kv.1 = k) : (bucketGet s3 k).isSome = true := by
  unfold bucketGet
  obtain ⟨kv, hkv, he⟩ := h
  cases hf : s3.find? (fun kv => decide (kv.1 = k)) with
  | none =>
    rw [List.find?_eq_none] at hf
    exact absurd (by simp [he]) (hf kv hkv)
  | some kv2 => simp

theorem all_eq_false_of_mem {α : Type} (f : α → Bool) (l : List α) (a : α)
    (ha : a ∈ l) (hf : f a = false) : l.all f = false := by
  cases hall : l.all f
  · rfl
  · rw [List.all_eq_true] at hall
    rw [hall a ha] at hf
    cases hf

/-- One step of the `delete_directory` file-removal loop, then the whole
loop: removing the listed child files of a directory filters them out. -/
theorem remove_files_loop_ok (D : String) (Dc : List String) (hD : pathComp D = Dc)
    (ns : List String) :
    ∀ (st : LocalState),
    ns.Nodup →
    (∀ n ∈ ns, '/' ∉ n.data ∧ n ≠ "") →
    (∀ n ∈ ns, ∃ kv ∈ st.files, kv.1 = Dc ++ [n]) →
    LocalFileSystem.remove_files_loop D st ns =
      .ok { st with files :=
        st.files.filter (fun kv => ns.all (fun n => !(decide (kv.1 = Dc ++ [n])))) } := by
  induction ns with
  | nil =>
    intro st _ _ _
    simp [LocalFileSystem.remove_files_loop, List.all_nil, List.filter_true]
  | cons n ns ih =>
    intro st hnodup hwf hmem
    have hpath : pathComp (pyJoin D n) = Dc ++ [n] := by
      rw [pathComp_pyJoin_single D n (hwf n (by simp)).1 (hwf n (by simp)).2, hD]
    have hfile : isFileP st (pathComp (pyJoin D n)) = true := by
      rw [hpath]
      exact (isFileP_iff st (Dc ++ [n])).mpr (hmem n (by simp))
    have hos : osRemove st (pyJoin D n) =
        .ok { st with files := st.files.filter (fun kv => kv.1 ≠ Dc ++ [n]) } := by
      unfold osRemove
      rw [if_pos hfile, hpath]
    have hstep : LocalFileSystem.remove_files_loop D st (n :: ns) =
        LocalFileSystem.remove_files_loop D
          { st with files := st.files.filter (fun kv => kv.1 ≠ Dc ++ [n]) } ns := by
      simp only [LocalFileSystem.remove_files_loop, hos]
    rw [hstep]
    rw [ih _ hnodup.of_cons (fun m hm => hwf m (by simp [hm]))
      (by
        intro m hm
        obtain ⟨kv, hkv, he⟩ := hmem m (by simp [hm])
        refine ⟨kv, ?_, he⟩
        rw [List.mem_filter]
        refine ⟨hkv, ?_⟩
        have hne : m ≠ n := by
          intro hc
          subst hc
          exact (List.nodup_cons.mp hnodup).1 hm
        simp only [he]
        simp [hne])]
    rw [List.filter_filter]
    have hfun : ∀ kv : List String × FileContent,
        ((ns.all fun m => !decide (kv.1 = Dc ++ [m])) && decide (kv.1 ≠ Dc ++ [n]))
          = ((n :: ns).all fun m => !decide (kv.1 = Dc ++ [m])) := by
      intro kv
      simp [List.all_cons, decide_not, Bool.and_comm]
    simp only [hfun]

/-- `delete_directory` on an existing, flat document directory (every child
is a file, every stored path has well-formed components): it removes exactly
the directory and its child files, and returns `None`. -/
theorem delete_directory_flat (st : LocalState) (bp kb doc : String)
    (hdir : pathComp (pyJoin3 bp kb doc) ∈ st.dirs)
    (hwff : ∀ kv ∈ st.files, ∀ c ∈ kv.1, '/' ∉ c.data ∧ c ≠ "")
    (hnodupf : (st.files.map Prod.fst).Nodup)
    (hflat : ∀ d ∈ st.dirs, childNameOf (pathComp (pyJoin3 bp kb doc)) d = none) :
    LocalFileSystem.delete_directory st bp kb doc =
      .ok ({ dirs := st.dirs.filter (fun d => d ≠ pathComp (pyJoin3 bp kb doc)),
             files := st.files.filter
               (fun kv => !(childNameOf (pathComp (pyJoin3 bp kb doc)) kv.1).isSome) },
           none) := by
  set Dc := pathComp (pyJoin3 bp kb doc) with hDc
  have hdirb : isDirP st Dc = true := (isDirP_iff st Dc).mpr hdir
  have hcond : (existsP st (pyJoin3 bp kb doc) && isDirP st (pathComp (pyJoin3 bp kb doc)))
      = true := by
    unfold existsP
    rw [← hDc, hdirb]
    rfl
  have hdirsnil : st.dirs.filterMap (childNameOf Dc) = [] := by
    rw [List.filterMap_eq_nil_iff]
    exact hflat
  have hnames : childNames st Dc = (st.files.map Prod.fst).filterMap (childNameOf Dc) := by
    unfold childNames
    rw [List.filterMap_append, hdirsnil, List.append_nil]
  have hnamewf : ∀ n ∈ childNames st Dc, '/' ∉ n.data ∧ n ≠ "" := by
    intro n hn
    rw [hnames, List.mem_filterMap] at hn
    obtain ⟨key, hkey, hc⟩ := hn
    rw [childNameOf_eq_some_iff] at hc
    rw [List.mem_map] at hkey
    obtain ⟨kv, hkv, he⟩ := hkey
    exact hwff kv hkv n (by rw [he, hc]; simp)
  have hnamemem : ∀ n ∈ childNames st Dc, ∃ kv ∈ st.files, kv.1 = Dc ++ [n] := by
    intro n hn
    rw [hnames, List.mem_filterMap] at hn
    obtain ⟨key, hkey, hc⟩ := hn
    rw [childNameOf_eq_some_iff] at hc
    rw [List.mem_map] at hkey
    obtain ⟨kv, hkv, he⟩ := hkey
    exact ⟨kv, hkv, by rw [he, hc]⟩
  have hnamenodup : (childNames st Dc).Nodup := by
    rw [hnames]
    refine List.Nodup.filterMap ?_ hnodupf
    intro a a' b hb hb'
    rw [Option.mem_def, childNameOf_eq_some_iff] at hb hb'
    rw [hb, hb']
  have hloop := remove_files_loop_ok (pyJoin3 bp kb doc) Dc hDc.symm
    (childNames st Dc) st hnamenodup hnamewf hnamemem
  have hfilter1 : st.files.filter
      (fun kv => (childNames st Dc).all (fun n => !(decide (kv.1 = Dc ++ [n])))) =
      st.files.filter (fun kv => !(childNameOf Dc kv.1).isSome) := by
    apply List.filter_congr
    intro kv hkv
    cases hc : childNameOf Dc kv.1 with
    | none =>
      have : ∀ n ∈ childNames st Dc, (!(decide (kv.1 = Dc ++ [n]))) = true := by
        intro n _
        have : kv.1 ≠ Dc ++ [n] := by
          intro he
          rw [(childNameOf_eq_some_iff Dc kv.1 n).mpr he] at hc
          cases hc
        simp [this]
      rw [List.all_eq_true.mpr this]
      rfl
    | some n0 =>
      have he : kv.1 = Dc ++ [n0] := (childNameOf_eq_some_iff Dc kv.1 n0).mp hc
      have hn0 : n0 ∈ childNames st Dc := by
        rw [hnames, List.mem_filterMap]
        exact ⟨kv.1, List.mem_map_of_mem Prod.fst hkv, hc⟩
      rw [all_eq_false_of_mem _ _ n0 hn0 (by simp [he])]
      rfl
  have hloop' : LocalFileSystem.remove_files_loop (pyJoin3 bp kb doc) st
      (childNames st Dc) =
      .ok { dirs := st.dirs,
            files := st.files.filter (fun kv => !(childNameOf Dc kv.1).isSome) } := by
    rw [hloop, hfilter1]
  have hchild1 : childNames
      { dirs := st.dirs,
        files := st.files.filter (fun kv => !(childNameOf Dc kv.1).isSome) } Dc = [] := by
    unfold childNames
    rw [List.filterMap_append]
    have h1 : ((st.files.filter (fun kv => !(childNameOf Dc kv.1).isSome)).map
        Prod.fst).filterMap (childNameOf Dc) = [] := by
      rw [List.filterMap_eq_nil_iff]
      intro key hkey
      rw [List.mem_map] at hkey
      obtain ⟨kv, hkv, hkey'⟩ := hkey
      simp only [List.mem_filter] at hkv
      cases hc : childNameOf Dc key with
      | none => rfl
      | some n =>
        rw [← hkey'] at hc
        rw [hc] at hkv
        cases hkv.2
    rw [h1, hdirsnil]
    rfl
  have hdir1 : isDirP
      { dirs := st.dirs,
        files := st.files.filter (fun kv => !(childNameOf Dc kv.1).isSome) } Dc = true := by
    rw [isDirP_iff]
    exact hdir
  have hrm : osRmdir
      { dirs := st.dirs,
        files := st.files.filter (fun kv => !(childNameOf Dc kv.1).isSome) }
      (pyJoin3 bp kb doc) =
      .ok { dirs := st.dirs.filter (fun d => d ≠ Dc),
            files := st.files.filter (fun kv => !(childNameOf Dc kv.1).isSome) } := by
    unfold osRmdir
    rw [← hDc]
    rw [if_pos hdir1, if_pos hchild1]
  simp only [LocalFileSystem.delete_directory]
  rw [if_pos hcond]
  rw [← hDc, hloop']
  dsimp only
  rw [hrm]


/-! ## Claim theorems -/

/-- C7: for either backend, `from_dict` applied to the descriptor produced by
`to_dict` reconstructs a backend of the same concrete type with the same
`base_path` (local), resp. the same `base_path`, `bucket_name`,
`region_name`, credentials and `error_table` (S3; the two DynamoDB table
names are not part of the descriptor and come back unset). -/
theorem c7_descriptor_round_trip :
    (∀ bp : PyVal, from_dict (to_dict (.localFS bp)) = .ok (.localFS bp)) ∧
    (∀ bp bu rg ak sk et t1 t2 : PyVal,
      from_dict (to_dict (.s3FS bp bu rg ak sk et t1 t2)) =
        .ok (.s3FS bp bu rg ak sk et .noneV .noneV)) :=
  ⟨fun _ => rfl, fun _ _ _ _ _ _ _ _ => rfl⟩

/-- C10: the S3 descriptor contains exactly `subclass_name`, `base_path`,
`bucket_name`, `region_name`, `access_key`, `secret_key` and `error_table`;
the `dynamodb_table_name` and `dynamodb_client_data_table_name` constructor
parameters are never captured, so a backend reconstructed from the
descriptor has them unset (`None`) even when the original had them set. -/
theorem c10_s3_to_dict_fields :
    (∀ bp bu rg ak sk et t1 t2 : PyVal,
      (to_dict (.s3FS bp bu rg ak sk et t1 t2)).map Prod.fst =
        ["subclass_name", "base_path", "bucket_name", "region_name",
         "access_key", "secret_key", "error_table"]) ∧
    (∀ bp bu rg ak sk et t1 t2 : PyVal,
      from_dict (to_dict (.s3FS bp bu rg ak sk et t1 t2)) =
        .ok (.s3FS bp bu rg ak sk et .noneV .noneV)) :=
  ⟨fun _ _ _ _ _ _ _ _ => rfl, fun _ _ _ _ _ _ _ _ => rfl⟩

/-- C8: `from_dict` on a descriptor whose `subclass_name` is not a registered
backend name (or is absent) fails with the explicit "Unknown subclass" error
and returns no object; on a registered name it constructs that concrete type
from the remaining fields after removing `subclass_name`. -/
theorem c8_from_dict_registry :
    (∀ (cfg : Config) (n : String), cfgGet cfg "subclass_name" = some (.str n) →
      n ∉ registeredSubclasses →
      from_dict cfg = .error (.valueError ("Unknown subclass: " ++ n))) ∧
    (∀ cfg : Config, cfgGet cfg "subclass_name" = some (.str "LocalFileSystem") →
      from_dict cfg = localFromKwargs (cfgRemove cfg "subclass_name")) ∧
    (∀ cfg : Config, cfgGet cfg "subclass_name" = some (.str "S3FileSystem") →
      from_dict cfg = s3FromKwargs (cfgRemove cfg "subclass_name")) ∧
    (∀ cfg : Config, cfgGet cfg "subclass_name" = none →
      from_dict cfg = .error (.valueError "Unknown subclass: None")) := by
  refine ⟨?_, ?_, ?_, ?_⟩
  · intro cfg n h hreg
    simp only [registeredSubclasses, List.mem_cons, List.mem_singleton, not_or] at hreg
    simp only [from_dict, h]
    rw [if_neg hreg.1, if_neg hreg.2.1]
  · intro cfg h
    simp [from_dict, h]
  · intro cfg h
    simp [from_dict, h]
  · intro cfg h
    simp only [from_dict, h]

/-- C8 witness: an unregistered name is rejected with the explicit error. -/
theorem c8_witness :
    from_dict [("subclass_name", .str "CustomBackend")] =
      .error (.valueError "Unknown subclass: CustomBackend") :=
  c8_from_dict_registry.1 [("subclass_name", .str "CustomBackend")]
    "CustomBackend" rfl (by decide)

/-- C3 counterexample: the claim says `deleteDirectory` "returns the set of
removed item identifiers, which is the empty set when nothing was removed"
for every backend, but the local backend's `delete_directory` returns the
Python value `None` (embedded as `Option.none`), not an empty collection
(`some []`). -/
theorem c3_counterexample :
    LocalFileSystem.delete_directory { dirs := [], files := [] } "b" "k" "d" =
        .ok ({ dirs := [], files := [] }, none) ∧
    (none : Option (List String)) ≠ some [] :=
  ⟨rfl, by decide⟩

/-- C3 (amended): `deleteDirectory` is idempotent on both backends — on a
document that was never created it succeeds silently with no state change —
and removes every asset under an existing (flat, well-formed) document
directory; the S3 backend returns the list of removed object keys, which is
empty when nothing was removed (and then the state is unchanged); the local
backend returns `None`, not a removed-set. -/
theorem c3_delete_directory_amended :
    (∀ (st : LocalState) (bp kb doc : String), existsP st (pyJoin3 bp kb doc) = false →
      LocalFileSystem.delete_directory st bp kb doc = .ok (st, none)) ∧
    (∀ (st : LocalState) (bp kb doc : String),
      pathComp (pyJoin3 bp kb doc) ∈ st.dirs →
      (∀ kv ∈ st.files, ∀ c ∈ kv.1, '/' ∉ c.data ∧ c ≠ "") →
      (st.files.map Prod.fst).Nodup →
      (∀ d ∈ st.dirs, childNameOf (pathComp (pyJoin3 bp kb doc)) d = none) →
      LocalFileSystem.delete_directory st bp kb doc =
        .ok ({ dirs := st.dirs.filter (fun d => d ≠ pathComp (pyJoin3 bp kb doc)),
               files := st.files.filter
                 (fun kv => !(childNameOf (pathComp (pyJoin3 bp kb doc)) kv.1).isSome) },
             none)) ∧
    (∀ (s3 : S3State) (kb doc : String),
      (S3FileSystem.delete_directory s3 kb doc).2 =
          listKeysWithPfx s3 (kb ++ "/" ++ doc ++ "/") ∧
        (S3FileSystem.delete_directory s3 kb doc).1 =
          s3.filter (fun kv => !(pyStartsWith kv.1 (kb ++ "/" ++ doc ++ "/"))) ∧
        (listKeysWithPfx s3 (kb ++ "/" ++ doc ++ "/") = [] →
          S3FileSystem.delete_directory s3 kb doc = (s3, []))) := by
  refine ⟨?_, ?_, ?_⟩
  · intro st bp kb doc h
    have hc : (existsP st (pyJoin3 bp kb doc) &&
        isDirP st (pathComp (pyJoin3 bp kb doc))) = false := by
      rw [h]
      rfl
    simp only [LocalFileSystem.delete_directory, hc, Bool.false_eq_true, if_false]
  · intro st bp kb doc hdir hwff hnodupf hflat
    exact delete_directory_flat st bp kb doc hdir hwff hnodupf hflat
  · intro s3 kb doc
    refine ⟨?_, s3_delete_directory_fst s3 kb doc, ?_⟩
    · unfold S3FileSystem.delete_directory
      by_cases h : listKeysWithPfx s3 (kb ++ "/" ++ doc ++ "/") = []
      · rw [if_pos h]
        exact h.symm
      · rw [if_neg h]
    · intro h
      unfold S3FileSystem.delete_directory
      rw [if_pos h]

/-- C3 witness: the amended statement at concrete inputs — a never-created
document, a concrete flat document directory, and a bucket with no matching
keys. -/
theorem c3_witness :
    LocalFileSystem.delete_directory { dirs := [], files := [] } "b" "k" "nope" =
        .ok ({ dirs := [], files := [] }, none) ∧
    LocalFileSystem.delete_directory
        { dirs := [["b"], ["b", "k"], ["b", "k", "d"]],
          files := [(["b", "k", "d", "page_1.jpg"], .imageC "x")] } "b" "k" "d" =
      .ok ({ dirs := ([["b"], ["b", "k"], ["b", "k", "d"]] :
                List (List String)).filter (fun d => d ≠ pathComp (pyJoin3 "b" "k" "d")),
             files := ([(["b", "k", "d", "page_1.jpg"], FileContent.imageC "x")]).filter
               (fun kv => !(childNameOf (pathComp (pyJoin3 "b" "k" "d")) kv.1).isSome) },
           none) ∧
    S3FileSystem.delete_directory [("other/x.json", .jsonC .nullV)] "k" "d" =
      ([("other/x.json", .jsonC .nullV)], []) :=
  ⟨c3_delete_directory_amended.1 { dirs := [], files := [] } "b" "k" "nope" rfl,
   c3_delete_directory_amended.2.1
     { dirs := [["b"], ["b", "k"], ["b", "k", "d"]],
       files := [(["b", "k", "d", "page_1.jpg"], .imageC "x")] } "b" "k" "d"
     (by decide) (by decide) (by decide) (by decide),
   (c3_delete_directory_amended.2.2 [("other/x.json", .jsonC .nullV)] "k" "d").2.2 rfl⟩


/-! ### Missing-data behavior of the read paths (for C4) -/

theorem load_page_content_missing (st : LocalState) (bp kb doc : String) (n : Int)
    (hf : isFileP st (pathComp (pyJoin4 bp kb doc (pageContentName n))) = false)
    (hd : isDirP st (pathComp (pyJoin4 bp kb doc (pageContentName n))) = false) :
    LocalFileSystem.load_page_content st bp kb doc n = .ok none := by
  have ho : openRead st (pyJoin4 bp kb doc (pageContentName n)) =
      .error (.fileNotFoundError (pyJoin4 bp kb doc (pageContentName n))) := by
    simp only [openRead]
    rw [findFile_eq_none st _ hf]
    simp only [hd, Bool.false_eq_true, if_false]
  simp only [LocalFileSystem.load_page_content, ho]

theorem load_data_missing (st : LocalState) (bp kb doc dn : String)
    (hf : isFileP st (pathComp (pyJoin4 bp kb doc (dn ++ ".json"))) = false)
    (hd : isDirP st (pathComp (pyJoin4 bp kb doc (dn ++ ".json"))) = false) :
    LocalFileSystem.load_data st bp kb doc dn =
      .ok (none, ["File not found: " ++ pyJoin4 bp kb doc (dn ++ ".json")]) := by
  have ho : openRead st (pyJoin4 bp kb doc (dn ++ ".json")) =
      .error (.fileNotFoundError (pyJoin4 bp kb doc (dn ++ ".json"))) := by
    simp only [openRead]
    rw [findFile_eq_none st _ hf]
    simp only [hd, Bool.false_eq_true, if_false]
  simp only [LocalFileSystem.load_data, ho]

theorem load_range_loop_missing (st : LocalState) (bp kb doc : String) (pages : List Int)
    (h : ∀ i ∈ pages,
      isFileP st (pathComp (pyJoin4 bp kb doc (pageContentName i))) = false ∧
      isDirP st (pathComp (pyJoin4 bp kb doc (pageContentName i))) = false) :
    LocalFileSystem.load_range_loop st bp kb doc pages = .ok [] := by
  induction pages with
  | nil => rfl
  | cons i rest ih =>
    have h1 := load_page_content_missing st bp kb doc i (h i (by simp)).1 (h i (by simp)).2
    have h2 := ih (fun j hj => h j (by simp [hj]))
    simp only [LocalFileSystem.load_range_loop, h1, h2]

theorem try_exts_download_missing (s3 : S3State) (bp kb doc : String) (i : Int)
    (st : LocalState) (hdir : isDirP st (pathComp (pyJoin3 bp kb doc)) = true)
    (exts : List String)
    (hmiss : ∀ ext ∈ exts, bucketGet s3 (kb ++ "/" ++ doc ++ "/" ++ pageName i ext) = none) :
    S3FileSystem.try_exts_download s3 bp kb doc i st exts = .ok (st, none) := by
  induction exts with
  | nil => rfl
  | cons ext rest ih =>
    have hex : existsP st (pyJoin3 bp kb doc) = true := by
      unfold existsP
      rw [hdir]
      rfl
    have hdl : S3FileSystem.download_file s3 st
        (kb ++ "/" ++ doc ++ "/" ++ pageName i ext)
        (pyJoin bp (kb ++ "/" ++ doc ++ "/" ++ pageName i ext)) =
        .error .clientError := by
      simp only [S3FileSystem.download_file, hmiss ext (by simp)]
    simp only [S3FileSystem.try_exts_download, hex, if_true, hdl]
    exact ih (fun e he => hmiss e (by simp [he]))

theorem get_files_loop_missing (s3 : S3State) (bp kb doc : String) (st : LocalState)
    (hdir : isDirP st (pathComp (pyJoin3 bp kb doc)) = true) (pages : List Int)
    (hmiss : ∀ i ∈ pages, ∀ ext ∈ extsOrder,
      bucketGet s3 (kb ++ "/" ++ doc ++ "/" ++ pageName i ext) = none) :
    S3FileSystem.get_files_loop s3 bp kb doc st pages = .ok (st, []) := by
  induction pages with
  | nil => rfl
  | cons i rest ih =>
    have h1 := try_exts_download_missing s3 bp kb doc i st hdir extsOrder
      (hmiss i (by simp))
    have h2 := ih (fun j hj e he => hmiss j (by simp [hj]) e he)
    simp only [S3FileSystem.get_files_loop, h1, h2]

theorem s3_load_range_loop_missing (s3 : S3State) (kb doc : String) (pages : List Int)
    (h : ∀ i ∈ pages,
      bucketGet s3 (kb ++ "/" ++ doc ++ "/" ++ pageContentName i) = none) :
    S3FileSystem.load_range_loop s3 kb doc pages = [] := by
  induction pages with
  | nil => rfl
  | cons i rest ih =>
    have h1 : S3FileSystem.load_page_content s3 kb doc i = (none, []) := by
      simp only [S3FileSystem.load_page_content, h i (by simp)]
    simp only [S3FileSystem.load_range_loop, h1]
    exact ih (fun j hj => h j (by simp [hj]))

/-- C4 counterexample: `getAllPageImages` on the local backend raises
`FileNotFoundError` (from `os.listdir`) when the document location is
missing, instead of returning an absent or empty result. -/
theorem c4_counterexample :
    LocalFileSystem.get_all_jpg_files { dirs := [], files := [] } "b" "k" "d" =
      .error (.fileNotFoundError "b/k/d") := rfl

/-- C4 (amended): every listed read path returns an absent or empty result,
and does not raise, when the requested page, file, object or document
location is missing — except the local `get_all_jpg_files`, which raises
`FileNotFoundError` when the document directory is missing (the
counterexample).  Conjuncts: local `get_files`, local `load_page_content`,
local `load_page_content_range`, local `load_data`, S3 `get_files` (with an
existing mirror directory), S3 `get_all_jpg_files`, S3 `load_page_content`,
S3 `load_page_content_range`, S3 `load_data`. -/
theorem c4_reads_absent_on_missing :
    (∀ (st : LocalState) (bp kb doc : String) (a b : Int),
      (∀ i ∈ pyRange a (b + 1), ∀ ext ∈ extsOrder,
        existsP st (pyJoin (pyJoin3 bp kb doc) (pageName i ext)) = false) →
      LocalFileSystem.get_files st bp kb doc (some a) (some b) = []) ∧
    (∀ (st : LocalState) (bp kb doc : String) (n : Int),
      isFileP st (pathComp (pyJoin4 bp kb doc (pageContentName n))) = false →
      isDirP st (pathComp (pyJoin4 bp kb doc (pageContentName n))) = false →
      LocalFileSystem.load_page_content st bp kb doc n = .ok none) ∧
    (∀ (st : LocalState) (bp kb doc : String) (a b : Int),
      (∀ i ∈ pyRange a (b + 1),
        isFileP st (pathComp (pyJoin4 bp kb doc (pageContentName i))) = false ∧
        isDirP st (pathComp (pyJoin4 bp kb doc (pageContentName i))) = false) →
      LocalFileSystem.load_page_content_range st bp kb doc a b = .ok []) ∧
    (∀ (st : LocalState) (bp kb doc dn : String),
      isFileP st (pathComp (pyJoin4 bp kb doc (dn ++ ".json"))) = false →
      isDirP st (pathComp (pyJoin4 bp kb doc (dn ++ ".json"))) = false →
      LocalFileSystem.load_data st bp kb doc dn =
        .ok (none, ["File not found: " ++ pyJoin4 bp kb doc (dn ++ ".json")])) ∧
    (∀ (s3 : S3State) (st : LocalState) (bp kb doc : String) (a b : Int),
      isDirP st (pathComp (pyJoin3 bp kb doc)) = true →
      (∀ i ∈ pyRange a (b + 1), ∀ ext ∈ extsOrder,
        bucketGet s3 (kb ++ "/" ++ doc ++ "/" ++ pageName i ext) = none) →
      S3FileSystem.get_files s3 st bp kb doc (some a) (some b) = .ok (st, [])) ∧
    (∀ (s3 : S3State) (st : LocalState) (bp kb doc : String),
      listKeysWithPfx s3 (kb ++ "/" ++ doc ++ "/") = [] →
      S3FileSystem.get_all_jpg_files s3 st bp kb doc = (st, [])) ∧
    (∀ (s3 : S3State) (kb doc : String) (n : Int),
      bucketGet s3 (kb ++ "/" ++ doc ++ "/" ++ pageContentName n) = none →
      S3FileSystem.load_page_content s3 kb doc n = (none, [])) ∧
    (∀ (s3 : S3State) (kb doc : String) (a b : Int),
      (∀ i ∈ pyRange a (b + 1),
        bucketGet s3 (kb ++ "/" ++ doc ++ "/" ++ pageContentName i) = none) →
      S3FileSystem.load_page_content_range s3 kb doc a b = []) ∧
    (∀ (s3 : S3State) (kb doc dn : String),
      bucketGet s3 (kb ++ "/" ++ doc ++ "/" ++ dn ++ ".json") = none →
      S3FileSystem.load_data s3 kb doc dn =
        (none, ["File not found in S3: " ++ (kb ++ "/" ++ doc ++ "/" ++ dn ++ ".json")])) := by
  refine ⟨?_, ?_, ?_, ?_, ?_, ?_, ?_, ?_, ?_⟩
  · intro st bp kb doc a b hmiss
    simp only [LocalFileSystem.get_files]
    rw [List.filterMap_eq_nil_iff]
    intro i hi
    unfold LocalFileSystem.try_exts
    rw [List.findSome?_eq_none_iff]
    intro ext he
    simp only [hmiss i hi ext he, Bool.false_eq_true, if_false]
  · exact load_page_content_missing
  · intro st bp kb doc a b h
    exact load_range_loop_missing st bp kb doc (pyRange a (b + 1)) h
  · exact load_data_missing
  · intro s3 st bp kb doc a b hdir hmiss
    simp only [S3FileSystem.get_files]
    exact get_files_loop_missing s3 bp kb doc st hdir (pyRange a (b + 1)) hmiss
  · intro s3 st bp kb doc h
    simp only [S3FileSystem.get_all_jpg_files, h]
    rw [if_pos trivial]
  · intro s3 kb doc n h
    simp only [S3FileSystem.load_page_content, h]
  · intro s3 kb doc a b h
    exact s3_load_range_loop_missing s3 kb doc (pyRange a (b + 1)) h
  · intro s3 kb doc dn h
    simp only [S3FileSystem.load_data, h]

/-- C4 witness: the amended statement at concrete inputs — an empty local
disk, a mirror directory with an empty bucket. -/
theorem c4_witness :
    LocalFileSystem.get_files { dirs := [], files := [] } "b" "k" "d"
        (some 1) (some 3) = [] ∧
    LocalFileSystem.load_page_content { dirs := [], files := [] } "b" "k" "d" 5 =
        .ok none ∧
    LocalFileSystem.load_page_content_range { dirs := [], files := [] } "b" "k" "d" 1 3 =
        .ok [] ∧
    LocalFileSystem.load_data { dirs := [], files := [] } "b" "k" "d" "elements" =
        .ok (none, ["File not found: " ++ pyJoin4 "b" "k" "d" ("elements" ++ ".json")]) ∧
    S3FileSystem.get_files [] { dirs := [["b"], ["b", "k"], ["b", "k", "d"]], files := [] }
        "b" "k" "d" (some 1) (some 3) =
        .ok ({ dirs := [["b"], ["b", "k"], ["b", "k", "d"]], files := [] }, []) ∧
    S3FileSystem.get_all_jpg_files [] { dirs := [], files := [] } "b" "k" "d" =
        ({ dirs := [], files := [] }, []) ∧
    S3FileSystem.load_page_content [] "k" "d" 5 = (none, []) ∧
    S3FileSystem.load_page_content_range [] "k" "d" 1 3 = [] ∧
    S3FileSystem.load_data [] "k" "d" "elements" =
        (none, ["File not found in S3: " ++ ("k" ++ "/" ++ "d" ++ "/" ++ "elements" ++ ".json")]) :=
  ⟨c4_reads_absent_on_missing.1 _ "b" "k" "d" 1 3 (by decide),
   c4_reads_absent_on_missing.2.1 _ "b" "k" "d" 5 rfl rfl,
   c4_reads_absent_on_missing.2.2.1 _ "b" "k" "d" 1 3 (by decide),
   c4_reads_absent_on_missing.2.2.2.1 _ "b" "k" "d" "elements" rfl rfl,
   c4_reads_absent_on_missing.2.2.2.2.1 [] _ "b" "k" "d" 1 3 (by decide)
     (fun i _ ext _ => rfl),
   c4_reads_absent_on_missing.2.2.2.2.2.1 [] _ "b" "k" "d" rfl,
   c4_reads_absent_on_missing.2.2.2.2.2.2.1 [] "k" "d" 5 rfl,
   c4_reads_absent_on_missing.2.2.2.2.2.2.2.1 [] "k" "d" 1 3 (fun i _ => rfl),
   c4_reads_absent_on_missing.2.2.2.2.2.2.2.2 [] "k" "d" "elements" rfl⟩


theorem openRead_found (st : LocalState) (p : String) (c : FileContent)
    (h : findFile st (pathComp p) = some c) : openRead st p = .ok c := by
  simp only [openRead, h]

/-- C5 counterexample: a JSON parse failure on a stored page-content file is
not treated as not-found by the local `load_page_content` — the
`JSONDecodeError` propagates to the caller (only `FileNotFoundError` is
caught). -/
theorem c5_counterexample :
    LocalFileSystem.load_page_content
      { dirs := [["b"], ["b", "k"], ["b", "k", "d"]],
        files := [(["b", "k", "d", "page_content_1.json"], .malformed "x")] }
      "b" "k" "d" 1 = .error (.jsonDecodeError "x") := rfl

/-- C5 (amended): a JSON parse failure on stored bytes is logged as a
diagnostic and treated the same as not-found (absent result, no exception)
by `load_data` on both backends and by the S3 `load_page_content`; the local
`load_page_content` instead propagates the `JSONDecodeError` (it catches
only `FileNotFoundError`). -/
theorem c5_malformed_json :
    (∀ (st : LocalState) (bp kb doc dn m : String),
      findFile st (pathComp (pyJoin4 bp kb doc (dn ++ ".json"))) = some (.malformed m) →
      LocalFileSystem.load_data st bp kb doc dn =
        .ok (none, ["Error decoding JSON from " ++
          pyJoin4 bp kb doc (dn ++ ".json") ++ ": " ++ m])) ∧
    (∀ (s3 : S3State) (kb doc dn m : String),
      bucketGet s3 (kb ++ "/" ++ doc ++ "/" ++ dn ++ ".json") = some (.malformed m) →
      S3FileSystem.load_data s3 kb doc dn =
        (none, ["Error decoding JSON from S3 file " ++
          (kb ++ "/" ++ doc ++ "/" ++ dn ++ ".json") ++ ": " ++ m])) ∧
    (∀ (s3 : S3State) (kb doc : String) (n : Int) (m : String),
      bucketGet s3 (kb ++ "/" ++ doc ++ "/" ++ pageContentName n) = some (.malformed m) →
      S3FileSystem.load_page_content s3 kb doc n =
        (none, ["Error loading page content from S3: " ++ errMsg (.jsonDecodeError m)])) ∧
    (∀ (st : LocalState) (bp kb doc : String) (n : Int) (m : String),
      findFile st (pathComp (pyJoin4 bp kb doc (pageContentName n))) = some (.malformed m) →
      LocalFileSystem.load_page_content st bp kb doc n = .error (.jsonDecodeError m)) := by
  refine ⟨?_, ?_, ?_, ?_⟩
  · intro st bp kb doc dn m h
    have ho := openRead_found st (pyJoin4 bp kb doc (dn ++ ".json")) (.malformed m) h
    simp only [LocalFileSystem.load_data, ho, jsonLoad]
  · intro s3 kb doc dn m h
    simp only [S3FileSystem.load_data, h, jsonLoad]
  · intro s3 kb doc n m h
    simp only [S3FileSystem.load_page_content, h, jsonLoad]
  · intro st bp kb doc n m h
    have ho := openRead_found st (pyJoin4 bp kb doc (pageContentName n)) (.malformed m) h
    simp only [LocalFileSystem.load_page_content, ho, jsonLoad]

/-- C5 witness: the amended statement at concrete malformed blobs. -/
theorem c5_witness :
    LocalFileSystem.load_data
        { dirs := [["b"], ["b", "k"], ["b", "k", "d"]],
          files := [(["b", "k", "d", "elements.json"], .malformed "bad")] }
        "b" "k" "d" "elements" =
      .ok (none, ["Error decoding JSON from " ++
        pyJoin4 "b" "k" "d" ("elements" ++ ".json") ++ ": " ++ "bad"]) ∧
    S3FileSystem.load_data [("k/d/elements.json", .malformed "bad")] "k" "d" "elements" =
      (none, ["Error decoding JSON from S3 file " ++
        ("k" ++ "/" ++ "d" ++ "/" ++ "elements" ++ ".json") ++ ": " ++ "bad"]) ∧
    S3FileSystem.load_page_content [("k/d/page_content_5.json", .malformed "bad")] "k" "d" 5 =
      (none, ["Error loading page content from S3: " ++ errMsg (.jsonDecodeError "bad")]) ∧
    LocalFileSystem.load_page_content
        { dirs := [["b"], ["b", "k"], ["b", "k", "d"]],
          files := [(["b", "k", "d", "page_content_5.json"], .malformed "bad")] }
        "b" "k" "d" 5 = .error (.jsonDecodeError "bad") :=
  ⟨c5_malformed_json.1 _ "b" "k" "d" "elements" "bad" rfl,
   c5_malformed_json.2.1 _ "k" "d" "elements" "bad" rfl,
   c5_malformed_json.2.2.1 _ "k" "d" 5 "bad" rfl,
   c5_malformed_json.2.2.2 _ "b" "k" "d" 5 "bad" rfl⟩


theorem find?_map_replace_gen {α β : Type} [DecidableEq α] (l : List (α × β)) (key : α) (c : β)
    (h : l.any (fun kv => decide (kv.1 = key)) = true) :
    ((l.map (fun kv => if kv.1 = key then (key, c) else kv)).find?
      (fun kv => decide (kv.1 = key))) = some (key, c) := by
  induction l with
  | nil => cases h
  | cons kv rest ih =>
    by_cases hk : kv.1 = key
    · rw [List.map_cons, if_pos hk]
      exact List.find?_cons_of_pos _ (by simp)
    · have h2 : rest.any (fun kv => decide (kv.1 = key)) = true := by
        simpa [List.any_cons, hk] using h
      rw [List.map_cons, if_neg hk]
      rw [List.find?_cons_of_neg _ (by simp [hk])]
      exact ih h2

theorem findFile_setFile_self (st : LocalState) (pc : List String) (c : FileContent) :
    findFile (setFile st pc c) pc = some c := by
  unfold setFile
  by_cases h : isFileP st pc = true
  · rw [if_pos h]
    unfold findFile
    rw [find?_map_replace_gen st.files pc c h]
    rfl
  · rw [if_neg h]
    unfold findFile
    have hn : st.files.find? (fun kv => decide (kv.1 = pc)) = none := by
      rw [List.find?_eq_none]
      intro kv hkv hc
      exact h ((isFileP_iff st pc).mpr ⟨kv, hkv, of_decide_eq_true hc⟩)
    rw [List.find?_append, hn]
    simp

theorem openWrite_ok_inv (st : LocalState) (p : String) (c : FileContent) (st2 : LocalState)
    (h : openWrite st p c = .ok st2) : st2 = setFile st (pathComp p) c := by
  simp only [openWrite] at h
  split at h
  · cases h
  · split at h
    · cases h
    · split at h
      · injection h with h2
        exact h2.symm
      · split at h
        · cases h
        · cases h

theorem setFile_dirs (st : LocalState) (pc : List String) (c : FileContent) :
    (setFile st pc c).dirs = st.dirs := by
  unfold setFile
  by_cases h : isFileP st pc = true
  · rw [if_pos h]
  · rw [if_neg h]

theorem isDirP_congr_dirs (st1 st2 : LocalState) (h : st1.dirs = st2.dirs)
    (pc : List String) : isDirP st1 pc = isDirP st2 pc := by
  unfold isDirP
  rw [h]

theorem openWrite_ok_of (st : LocalState) (p : String) (c : FileContent)
    (Dc : List String) (nm : String)
    (hpc : pathComp p = Dc ++ [nm])
    (hnd : isDirP st (pathComp p) = false)
    (hparent : isDirP st Dc = true) :
    openWrite st p c = .ok (setFile st (pathComp p) c) := by
  simp only [openWrite]
  rw [hnd]
  simp only [Bool.false_eq_true, if_false]
  rw [hpc]
  rw [if_neg (by simp)]
  rw [List.dropLast_concat]
  rw [if_pos hparent]

/-- C6: a page's content loads back exactly as saved, on both backends, and
loading a page whose content was never written yields an absent result, not
a failure. -/
theorem c6_page_content_round_trip :
    (∀ (st : LocalState) (bp kb doc : String) (n : Int) (s : String) (st2 : LocalState),
      LocalFileSystem.save_page_content st bp kb doc n s = .ok st2 →
      LocalFileSystem.load_page_content st2 bp kb doc n = .ok (some (.strV s))) ∧
    (∀ (st : LocalState) (bp kb doc : String) (n : Int),
      isFileP st (pathComp (pyJoin4 bp kb doc (pageContentName n))) = false →
      isDirP st (pathComp (pyJoin4 bp kb doc (pageContentName n))) = false →
      LocalFileSystem.load_page_content st bp kb doc n = .ok none) ∧
    (∀ (s3 : S3State) (kb doc : String) (n : Int) (s : String),
      S3FileSystem.load_page_content (S3FileSystem.save_page_content s3 kb doc n s)
        kb doc n = (some (.strV s), [])) ∧
    (∀ (s3 : S3State) (kb doc : String) (n : Int),
      bucketGet s3 (kb ++ "/" ++ doc ++ "/" ++ pageContentName n) = none →
      S3FileSystem.load_page_content s3 kb doc n = (none, [])) := by
  refine ⟨?_, ?_, ?_, ?_⟩
  · intro st bp kb doc n s st2 h
    have hst2 : st2 = setFile st (pathComp (pyJoin4 bp kb doc (pageContentName n)))
        (pageContentJson s) :=
      openWrite_ok_inv st _ _ st2 h
    have ho : openRead st2 (pyJoin4 bp kb doc (pageContentName n)) =
        .ok (pageContentJson s) := by
      apply openRead_found
      rw [hst2]
      exact findFile_setFile_self st _ (pageContentJson s)
    simp only [LocalFileSystem.load_page_content, ho]
    rfl
  · exact load_page_content_missing
  · intro s3 kb doc n s
    have hput := bucketGet_bucketPut_self s3 (kb ++ "/" ++ doc ++ "/" ++ pageContentName n)
      (pageContentJson s)
    simp only [S3FileSystem.load_page_content, S3FileSystem.save_page_content, hput]
    rfl
  · intro s3 kb doc n h
    simp only [S3FileSystem.load_page_content, h]

/-- C6 witness: saving `"hello"` as page 5 and loading it back, plus the
unwritten-page cases, at concrete states. -/
theorem c6_witness :
    LocalFileSystem.load_page_content
        { dirs := [["b"], ["b", "k"], ["b", "k", "d"]],
          files := [(["b", "k", "d", "page_content_5.json"], pageContentJson "hello")] }
        "b" "k" "d" 5 = .ok (some (.strV "hello")) ∧
    LocalFileSystem.load_page_content { dirs := [], files := [] } "b" "k" "d" 7 =
        .ok none ∧
    S3FileSystem.load_page_content (S3FileSystem.save_page_content [] "k" "d" 5 "hello")
        "k" "d" 5 = (some (.strV "hello"), []) ∧
    S3FileSystem.load_page_content [] "k" "d" 7 = (none, []) :=
  ⟨c6_page_content_round_trip.1
     { dirs := [["b"], ["b", "k"], ["b", "k", "d"]], files := [] } "b" "k" "d" 5 "hello"
     { dirs := [["b"], ["b", "k"], ["b", "k", "d"]],
       files := [(["b", "k", "d", "page_content_5.json"], pageContentJson "hello")] } rfl,
   c6_page_content_round_trip.2.1 { dirs := [], files := [] } "b" "k" "d" 7 rfl rfl,
   c6_page_content_round_trip.2.2.1 [] "k" "d" 5 "hello",
   c6_page_content_round_trip.2.2.2 [] "k" "d" 7 rfl⟩


/-! ### C1: `get_files` -/

theorem try_exts_eq (st : LocalState) (dirPath : String) (i : Int) :
    LocalFileSystem.try_exts st dirPath i =
      if hasPageImage st dirPath i then some (chosenPagePath st dirPath i) else none := by
  unfold LocalFileSystem.try_exts hasPageImage chosenPagePath extsOrder
  cases h1 : existsP st (pyJoin dirPath (pageName i ".jpg")) <;>
    cases h2 : existsP st (pyJoin dirPath (pageName i ".jpeg")) <;>
      cases h3 : existsP st (pyJoin dirPath (pageName i ".png")) <;>
        simp [List.findSome?_cons, List.any_cons, h1, h2, h3]

theorem pyRange_pairwise (a b : Int) : (pyRange a b).Pairwise (· < ·) := by
  rw [pyRange, List.pairwise_map]
  refine (List.pairwise_lt_range ((b - a).toNat)).imp ?_
  intro x y hxy
  omega

theorem try_exts_download_ok (s3 : S3State) (bp kb doc : String) (i : Int)
    (st : LocalState)
    (hdir : isDirP st (pathComp (pyJoin3 bp kb doc)) = true)
    (hsh : ∀ ext ∈ extsOrder,
      pathComp (pyJoin bp (s3PageKey kb doc i ext)) =
          pathComp (pyJoin3 bp kb doc) ++ [pageName i ext] ∧
        isDirP st (pathComp (pyJoin bp (s3PageKey kb doc i ext))) = false) :
    ∃ st2, S3FileSystem.try_exts_download s3 bp kb doc i st extsOrder =
        .ok (st2, if s3HasPageImage s3 kb doc i then
          some (s3ChosenPagePath s3 bp kb doc i) else none) ∧
      st2.dirs = st.dirs := by
  have hex : existsP st (pyJoin3 bp kb doc) = true := by
    unfold existsP
    rw [hdir]
    rfl
  have hwr1 : ∀ c : FileContent,
      openWrite st (pyJoin bp (kb ++ "/" ++ doc ++ "/" ++ pageName i ".jpg")) c =
        .ok (setFile st
          (pathComp (pyJoin bp (kb ++ "/" ++ doc ++ "/" ++ pageName i ".jpg"))) c) :=
    fun c => openWrite_ok_of st _ c (pathComp (pyJoin3 bp kb doc)) (pageName i ".jpg")
      (hsh ".jpg" (by simp [extsOrder])).1 (hsh ".jpg" (by simp [extsOrder])).2 hdir
  have hwr2 : ∀ c : FileContent,
      openWrite st (pyJoin bp (kb ++ "/" ++ doc ++ "/" ++ pageName i ".jpeg")) c =
        .ok (setFile st
          (pathComp (pyJoin bp (kb ++ "/" ++ doc ++ "/" ++ pageName i ".jpeg"))) c) :=
    fun c => openWrite_ok_of st _ c (pathComp (pyJoin3 bp kb doc)) (pageName i ".jpeg")
      (hsh ".jpeg" (by simp [extsOrder])).1 (hsh ".jpeg" (by simp [extsOrder])).2 hdir
  have hwr3 : ∀ c : FileContent,
      openWrite st (pyJoin bp (kb ++ "/" ++ doc ++ "/" ++ pageName i ".png")) c =
        .ok (setFile st
          (pathComp (pyJoin bp (kb ++ "/" ++ doc ++ "/" ++ pageName i ".png"))) c) :=
    fun c => openWrite_ok_of st _ c (pathComp (pyJoin3 bp kb doc)) (pageName i ".png")
      (hsh ".png" (by simp [extsOrder])).1 (hsh ".png" (by simp [extsOrder])).2 hdir
  simp only [S3FileSystem.try_exts_download, hex, if_true, S3FileSystem.download_file]
  unfold s3HasPageImage s3ChosenPagePath extsOrder s3PageKey
  cases h1 : bucketGet s3 (kb ++ "/" ++ doc ++ "/" ++ pageName i ".jpg") with
  | some c =>
    refine ⟨setFile st
      (pathComp (pyJoin bp (kb ++ "/" ++ doc ++ "/" ++ pageName i ".jpg"))) c, ?_,
      setFile_dirs _ _ _⟩
    simp only [h1, hwr1 c]
    simp [List.any_cons, h1]
  | none =>
    cases h2 : bucketGet s3 (kb ++ "/" ++ doc ++ "/" ++ pageName i ".jpeg") with
    | some c =>
      refine ⟨setFile st
        (pathComp (pyJoin bp (kb ++ "/" ++ doc ++ "/" ++ pageName i ".jpeg"))) c, ?_,
        setFile_dirs _ _ _⟩
      simp only [h1, h2, hwr2 c]
      simp [List.any_cons, h1, h2]
    | none =>
      cases h3 : bucketGet s3 (kb ++ "/" ++ doc ++ "/" ++ pageName i ".png") with
      | some c =>
        refine ⟨setFile st
          (pathComp (pyJoin bp (kb ++ "/" ++ doc ++ "/" ++ pageName i ".png"))) c, ?_,
          setFile_dirs _ _ _⟩
        simp only [h1, h2, h3, hwr3 c]
        simp [List.any_cons, h1, h2, h3]
      | none =>
        refine ⟨st, ?_, rfl⟩
        simp [h1, h2, h3]

theorem get_files_loop_spec (s3 : S3State) (bp kb doc : String) (pages : List Int) :
    ∀ st : LocalState,
    isDirP st (pathComp (pyJoin3 bp kb doc)) = true →
    (∀ i ∈ pages, ∀ ext ∈ extsOrder,
      pathComp (pyJoin bp (s3PageKey kb doc i ext)) =
          pathComp (pyJoin3 bp kb doc) ++ [pageName i ext] ∧
        isDirP st (pathComp (pyJoin bp (s3PageKey kb doc i ext))) = false) →
    ∃ st2, S3FileSystem.get_files_loop s3 bp kb doc st pages =
        .ok (st2, (pages.filter (s3HasPageImage s3 kb doc)).map
          (s3ChosenPagePath s3 bp kb doc)) ∧
      st2.dirs = st.dirs := by
  induction pages with
  | nil =>
    intro st _ _
    exact ⟨st, rfl, rfl⟩
  | cons i rest ih =>
    intro st hdir hsh
    obtain ⟨st1, h1, hd1⟩ := try_exts_download_ok s3 bp kb doc i st hdir (hsh i (by simp))
    obtain ⟨st2, h2, hd2⟩ := ih st1
      (by rw [isDirP_congr_dirs st1 st hd1]; exact hdir)
      (by
        intro j hj ext he
        refine ⟨(hsh j (by simp [hj]) ext he).1, ?_⟩
        rw [isDirP_congr_dirs st1 st hd1]
        exact (hsh j (by simp [hj]) ext he).2)
    refine ⟨st2, ?_, by rw [hd2, hd1]⟩
    by_cases hhas : s3HasPageImage s3 kb doc i = true
    · simp only [S3FileSystem.get_files_loop, h1, h2, hhas, if_true, List.filter_cons,
        List.map_cons]
    · have hhas' : s3HasPageImage s3 kb doc i = false := by
        cases hb : s3HasPageImage s3 kb doc i
        · rfl
        · exact absurd hb hhas
      simp only [S3FileSystem.get_files_loop, h1, h2, hhas', Bool.false_eq_true, if_false,
        List.filter_cons]

/-- C1: on both backends, with both bounds set and `page_start ≤ page_end`,
`get_files` returns exactly one local path per page that has an image, in
increasing page order, skipping pages with no image, the path being chosen
by trying `.jpg`, `.jpeg`, `.png` in that order and taking the first match;
with an unset bound it returns the empty list.  (For the S3 backend the
mirror directory is assumed to exist and each page key is assumed to resolve
to a fresh file directly inside it.) -/
theorem c1_get_files_spec :
    (∀ (st : LocalState) (bp kb doc : String) (a b : Int), a ≤ b →
      LocalFileSystem.get_files st bp kb doc (some a) (some b) =
          ((pyRange a (b + 1)).filter (hasPageImage st (pyJoin3 bp kb doc))).map
            (chosenPagePath st (pyJoin3 bp kb doc)) ∧
        ((pyRange a (b + 1)).filter
          (hasPageImage st (pyJoin3 bp kb doc))).Pairwise (· < ·)) ∧
    (∀ (st : LocalState) (bp kb doc : String) (pe : Option Int),
      LocalFileSystem.get_files st bp kb doc none pe = []) ∧
    (∀ (st : LocalState) (bp kb doc : String) (ps : Option Int),
      LocalFileSystem.get_files st bp kb doc ps none = []) ∧
    (∀ (s3 : S3State) (st : LocalState) (bp kb doc : String) (a b : Int), a ≤ b →
      isDirP st (pathComp (pyJoin3 bp kb doc)) = true →
      (∀ i ∈ pyRange a (b + 1), ∀ ext ∈ extsOrder,
        pathComp (pyJoin bp (s3PageKey kb doc i ext)) =
            pathComp (pyJoin3 bp kb doc) ++ [pageName i ext] ∧
          isDirP st (pathComp (pyJoin bp (s3PageKey kb doc i ext))) = false) →
      ∃ st2, S3FileSystem.get_files s3 st bp kb doc (some a) (some b) =
          .ok (st2, ((pyRange a (b + 1)).filter (s3HasPageImage s3 kb doc)).map
            (s3ChosenPagePath s3 bp kb doc)) ∧
        ((pyRange a (b + 1)).filter (s3HasPageImage s3 kb doc)).Pairwise (· < ·)) ∧
    (∀ (s3 : S3State) (st : LocalState) (bp kb doc : String) (pe : Option Int),
      S3FileSystem.get_files s3 st bp kb doc none pe = .ok (st, [])) ∧
    (∀ (s3 : S3State) (st : LocalState) (bp kb doc : String) (ps : Option Int),
      S3FileSystem.get_files s3 st bp kb doc ps none = .ok (st, [])) := by
  refine ⟨?_, ?_, ?_, ?_, ?_, ?_⟩
  · intro st bp kb doc a b _
    constructor
    · simp only [LocalFileSystem.get_files]
      have hfun : LocalFileSystem.try_exts st (pyJoin3 bp kb doc) = fun i =>
          if hasPageImage st (pyJoin3 bp kb doc) i then
            some (chosenPagePath st (pyJoin3 bp kb doc) i) else none :=
        funext (try_exts_eq st (pyJoin3 bp kb doc))
      rw [hfun, filterMap_ite]
    · exact List.Pairwise.filter _ (pyRange_pairwise a (b + 1))
  · intro st bp kb doc pe
    cases pe <;> rfl
  · intro st bp kb doc ps
    cases ps <;> rfl
  · intro s3 st bp kb doc a b _ hdir hsh
    obtain ⟨st2, h2, _⟩ := get_files_loop_spec s3 bp kb doc (pyRange a (b + 1)) st hdir hsh
    exact ⟨st2, h2, List.Pairwise.filter _ (pyRange_pairwise a (b + 1))⟩
  · intro s3 st bp kb doc pe
    cases pe <;> rfl
  · intro s3 st bp kb doc ps
    cases ps <;> rfl

/-- C1 witness: a document with `page_1.jpg`, `page_1.png`, `page_2.png`
(so the `.jpg` is preferred for page 1), requested range `[1, 2]`, for both
backends, plus the unset-bound cases. -/
theorem c1_witness :
    ((1 : Int) ≤ 2 ∧
      (LocalFileSystem.get_files
          { dirs := [["b"], ["b", "k"], ["b", "k", "d"]],
            files := [(["b", "k", "d", "page_1.jpg"], .imageC "x"),
                      (["b", "k", "d", "page_1.png"], .imageC "y"),
                      (["b", "k", "d", "page_2.png"], .imageC "z")] } "b" "k" "d"
          (some 1) (some 2) =
          ((pyRange 1 (2 + 1)).filter (hasPageImage
            { dirs := [["b"], ["b", "k"], ["b", "k", "d"]],
              files := [(["b", "k", "d", "page_1.jpg"], .imageC "x"),
                        (["b", "k", "d", "page_1.png"], .imageC "y"),
                        (["b", "k", "d", "page_2.png"], .imageC "z")] }
            (pyJoin3 "b" "k" "d"))).map
            (chosenPagePath
              { dirs := [["b"], ["b", "k"], ["b", "k", "d"]],
                files := [(["b", "k", "d", "page_1.jpg"], .imageC "x"),
                          (["b", "k", "d", "page_1.png"], .imageC "y"),
                          (["b", "k", "d", "page_2.png"], .imageC "z")] }
              (pyJoin3 "b" "k" "d")) ∧
        ((pyRange 1 (2 + 1)).filter (hasPageImage
          { dirs := [["b"], ["b", "k"], ["b", "k", "d"]],
            files := [(["b", "k", "d", "page_1.jpg"], .imageC "x"),
                      (["b", "k", "d", "page_1.png"], .imageC "y"),
                      (["b", "k", "d", "page_2.png"], .imageC "z")] }
          (pyJoin3 "b" "k" "d"))).Pairwise (· < ·))) ∧
    LocalFileSystem.get_files { dirs := [], files := [] } "b" "k" "d" none (some 3) = [] ∧
    (∃ st2, S3FileSystem.get_files
        [("k/d/page_1.jpg", .imageC "x"), ("k/d/page_2.png", .imageC "z")]
        { dirs := [["b"], ["b", "k"], ["b", "k", "d"]], files := [] } "b" "k" "d"
        (some 1) (some 2) =
        .ok (st2, ((pyRange 1 (2 + 1)).filter (s3HasPageImage
          [("k/d/page_1.jpg", .imageC "x"), ("k/d/page_2.png", .imageC "z")] "k" "d")).map
          (s3ChosenPagePath
            [("k/d/page_1.jpg", .imageC "x"), ("k/d/page_2.png", .imageC "z")]
            "b" "k" "d")) ∧
      ((pyRange 1 (2 + 1)).filter (s3HasPageImage
        [("k/d/page_1.jpg", .imageC "x"), ("k/d/page_2.png", .imageC "z")]
        "k" "d")).Pairwise (· < ·)) :=
  ⟨⟨by decide,
    c1_get_files_spec.1
      { dirs := [["b"], ["b", "k"], ["b", "k", "d"]],
        files := [(["b", "k", "d", "page_1.jpg"], .imageC "x"),
                  (["b", "k", "d", "page_1.png"], .imageC "y"),
                  (["b", "k", "d", "page_2.png"], .imageC "z")] } "b" "k" "d" 1 2
      (by decide)⟩,
   c1_get_files_spec.2.1 { dirs := [], files := [] } "b" "k" "d" (some 3),
   c1_get_files_spec.2.2.2.1
     [("k/d/page_1.jpg", .imageC "x"), ("k/d/page_2.png", .imageC "z")]
     { dirs := [["b"], ["b", "k"], ["b", "k", "d"]], files := [] } "b" "k" "d" 1 2
     (by decide) (by decide) (by decide)⟩


/-! ### C2: `get_all_jpg_files` -/

theorem pySortByIntKey_ok (l : List String)
    (h : ∀ x ∈ l, (sortKeyOf x).isSome = true) :
    ∃ l2, pySortByIntKey l = .ok l2 ∧ l2.Perm l ∧
      l2.Pairwise (fun x y => sortKeyD x ≤ sortKeyD y) := by
  have hall : l.all (fun x => (sortKeyOf x).isSome) = true := List.all_eq_true.mpr h
  refine ⟨l.mergeSort (fun x y => decide (sortKeyD x ≤ sortKeyD y)), ?_, ?_, ?_⟩
  · unfold pySortByIntKey
    rw [if_pos hall]
  · exact List.mergeSort_perm l _
  · have hs := @List.sorted_mergeSort String (fun x y => decide (sortKeyD x ≤ sortKeyD y))
      (fun a b c hab hbc =>
        decide_eq_true (le_trans (of_decide_eq_true hab) (of_decide_eq_true hbc)))
      (fun a b => by
        rcases le_total (sortKeyD a) (sortKeyD b) with hle | hle <;> simp [hle]) l
    exact hs.imp (fun hd => of_decide_eq_true hd)

theorem mem_listAncestors_self (l : List String) (h : l ≠ []) : l ∈ listAncestors l := by
  induction l with
  | nil => exact absurd rfl h
  | cons a rest ih =>
    by_cases hr : rest = []
    · subst hr
      simp [listAncestors]
    · have hm := ih hr
      simp only [listAncestors, List.mem_cons]
      right
      rw [List.mem_map]
      exact ⟨rest, hm, rfl⟩

theorem length_le_of_mem_listAncestors (l q : List String) (h : q ∈ listAncestors l) :
    q.length ≤ l.length := by
  induction l generalizing q with
  | nil => cases h
  | cons a rest ih =>
    simp only [listAncestors, List.mem_cons, List.mem_map] at h
    rcases h with h | ⟨q2, hq2, he⟩
    · subst h
      simp
    · rw [← he]
      simpa using ih q2 hq2

theorem any_eq_false_of {α : Type} (l : List α) (p : α → Bool)
    (h : ∀ x ∈ l, p x = false) : l.any p = false := by
  cases ha : l.any p
  · rfl
  · obtain ⟨x, hx, hpx⟩ := List.any_eq_true.mp ha
    rw [h x hx] at hpx
    cases hpx

/-- `os.makedirs(p, exist_ok=True)` succeeds when no file is in the way; it
does not change the files, makes `p` a directory, and adds no directory as
long as the added ancestors are no longer than `p`. -/
theorem osMakedirs_exist_ok (st : LocalState) (p : String)
    (hf : isFileP st (pathComp p) = false)
    (ha : ∀ q ∈ listAncestors (pathComp p), isFileP st q = false)
    (hne : pathComp p ≠ []) :
    ∃ st1, osMakedirs st p true = .ok st1 ∧ st1.files = st.files ∧
      isDirP st1 (pathComp p) = true ∧
      (∀ pc2 : List String, (pathComp p).length < pc2.length →
        isDirP st1 pc2 = isDirP st pc2) := by
  simp only [osMakedirs]
  rw [hf]
  simp only [Bool.false_eq_true, if_false]
  by_cases hd : isDirP st (pathComp p) = true
  · rw [if_pos hd, if_pos trivial]
    exact ⟨st, rfl, rfl, hd, fun _ _ => rfl⟩
  · rw [if_neg hd]
    have hany : (listAncestors (pathComp p)).any (fun q => isFileP st q) = false :=
      any_eq_false_of _ _ ha
    rw [hany]
    simp only [Bool.false_eq_true, if_false]
    refine ⟨_, rfl, rfl, ?_, ?_⟩
    · rw [isDirP_iff]
      apply List.mem_append_right
      rw [List.mem_filter]
      refine ⟨mem_listAncestors_self _ hne, ?_⟩
      simp only [Bool.not_eq_true']
      exact (Bool.not_eq_true _).mp hd
    · intro pc2 hlen
      show (st.dirs ++ _).any (fun d => decide (d = pc2)) = st.dirs.any _
      rw [List.any_append]
      have : ((listAncestors (pathComp p)).filter (fun q => !(isDirP st q))).any
          (fun d => decide (d = pc2)) = false := by
        apply any_eq_false_of
        intro q hq
        rw [List.mem_filter] at hq
        have hql := length_le_of_mem_listAncestors _ q hq.1
        have : q ≠ pc2 := by
          intro hc
          rw [hc] at hql
          omega
        simp [this]
      rw [this, Bool.or_false]

/-- The download loop of the S3 `get_all_jpg_files`: when every key exists
in the bucket and resolves to a fresh file directly inside the existing
mirror directory, every download succeeds and the local paths come back in
key order. -/
theorem download_all_loop_ok (s3 : S3State) (bp : String) (Dc : List String)
    (keys : List String) :
    ∀ st : LocalState,
    isDirP st Dc = true →
    (∀ k ∈ keys, (bucketGet s3 k).isSome = true) →
    (∀ k ∈ keys, isDirP st (pathComp (pyJoin bp k)) = false) →
    (∀ k ∈ keys, ∃ nm, pathComp (pyJoin bp k) = Dc ++ [nm]) →
    ∃ st2, S3FileSystem.download_all_loop s3 bp st keys =
        (st2, keys.map (fun k => pyJoin bp k)) ∧ st2.dirs = st.dirs := by
  induction keys with
  | nil =>
    intro st _ _ _ _
    exact ⟨st, rfl, rfl⟩
  | cons k rest ih =>
    intro st hdir hget hnd hsh
    obtain ⟨c, hc⟩ := Option.isSome_iff_exists.mp (hget k (by simp))
    obtain ⟨nm, hnm⟩ := hsh k (by simp)
    have hwr : openWrite st (pyJoin bp k) c =
        .ok (setFile st (pathComp (pyJoin bp k)) c) :=
      openWrite_ok_of st _ c Dc nm hnm (hnd k (by simp)) hdir
    have hdl : S3FileSystem.download_file s3 st k (pyJoin bp k) =
        .ok (setFile st (pathComp (pyJoin bp k)) c) := by
      simp only [S3FileSystem.download_file, hc, hwr]
    obtain ⟨st2, h2, hd2⟩ := ih (setFile st (pathComp (pyJoin bp k)) c)
      (by rw [isDirP_congr_dirs _ st (setFile_dirs _ _ _)]; exact hdir)
      (fun k2 hk2 => hget k2 (by simp [hk2]))
      (fun k2 hk2 => by
        rw [isDirP_congr_dirs _ st (setFile_dirs _ _ _)]
        exact hnd k2 (by simp [hk2]))
      (fun k2 hk2 => hsh k2 (by simp [hk2]))
    refine ⟨st2, ?_, by rw [hd2, setFile_dirs]⟩
    simp only [S3FileSystem.download_all_loop, hdl, h2, List.map_cons]

/-- C2: on both backends `get_all_jpg_files` returns every page image found
for the document (any of the three extensions), sorted ascending by the
integer page number parsed from the filename (numeric, not lexical, order).
The local conjunct assumes the directory listing succeeds and every image
filename parses; the S3 conjunct assumes every image key parses, resolves to
a fresh file directly inside the mirror directory, and no file blocks the
mirror-directory creation. -/
theorem c2_get_all_jpg_files_sorted :
    (∀ (st : LocalState) (bp kb doc : String) (entries : List String),
      listdirE st (pyJoin3 bp kb doc) = .ok entries →
      (∀ p ∈ (entries.filter LocalFileSystem.isImageName).map
        (fun f => pyJoin (pyJoin3 bp kb doc) f), (sortKeyOf p).isSome = true) →
      ∃ l, LocalFileSystem.get_all_jpg_files st bp kb doc = .ok l ∧
        l.Perm ((entries.filter LocalFileSystem.isImageName).map
          (fun f => pyJoin (pyJoin3 bp kb doc) f)) ∧
        l.Pairwise (fun x y => sortKeyD x ≤ sortKeyD y)) ∧
    (∀ (s3 : S3State) (st : LocalState) (bp kb doc : String),
      isFileP st (pathComp (pyJoin3 bp kb doc)) = false →
      (∀ q ∈ listAncestors (pathComp (pyJoin3 bp kb doc)), isFileP st q = false) →
      pathComp (pyJoin3 bp kb doc) ≠ [] →
      (∀ k ∈ (listKeysWithPfx s3 (kb ++ "/" ++ doc ++ "/")).filter
          S3FileSystem.isImageKey,
        (childNameOf (pathComp (pyJoin3 bp kb doc))
            (pathComp (pyJoin bp k))).isSome = true ∧
          isDirP st (pathComp (pyJoin bp k)) = false ∧
          (sortKeyOf (pyJoin bp k)).isSome = true) →
      ∃ st2 l, S3FileSystem.get_all_jpg_files s3 st bp kb doc = (st2, l) ∧
        l.Perm (((listKeysWithPfx s3 (kb ++ "/" ++ doc ++ "/")).filter
          S3FileSystem.isImageKey).map (fun k => pyJoin bp k)) ∧
        l.Pairwise (fun x y => sortKeyD x ≤ sortKeyD y)) := by
  constructor
  · intro st bp kb doc entries hld hkeys
    obtain ⟨l2, hsort, hperm, hpair⟩ := pySortByIntKey_ok
      ((entries.filter LocalFileSystem.isImageName).map
        (fun f => pyJoin (pyJoin3 bp kb doc) f)) hkeys
    refine ⟨l2, ?_, hperm, hpair⟩
    simp only [LocalFileSystem.get_all_jpg_files, hld, hsort]
  · intro s3 st bp kb doc hmf hma hne hkeys
    by_cases hc : listKeysWithPfx s3 (kb ++ "/" ++ doc ++ "/") = []
    · refine ⟨st, [], ?_, by rw [hc]; simp, by simp⟩
      simp only [S3FileSystem.get_all_jpg_files, hc]
      rw [if_pos trivial]
    · obtain ⟨st1, hmk, hfl1, hdir1, hpres1⟩ := osMakedirs_exist_ok st
        (pyJoin3 bp kb doc) hmf hma hne
    -- download every image key
      have hlen : ∀ pc2 : List String,
          pc2.length = (pathComp (pyJoin3 bp kb doc)).length + 1 →
          isDirP st1 pc2 = isDirP st pc2 := by
        intro pc2 hl
        exact hpres1 pc2 (by omega)
      obtain ⟨st2, hdl, hd2⟩ := download_all_loop_ok s3 bp
        (pathComp (pyJoin3 bp kb doc))
        ((listKeysWithPfx s3 (kb ++ "/" ++ doc ++ "/")).filter S3FileSystem.isImageKey)
        st1 hdir1
        (by
          intro k hk
          rw [List.mem_filter] at hk
          apply bucketGet_isSome_of_mem
          have hk2 := hk.1
          unfold listKeysWithPfx at hk2
          rw [List.mem_map] at hk2
          obtain ⟨kv, hkv, he⟩ := hk2
          rw [List.mem_filter] at hkv
          exact ⟨kv, hkv.1, he⟩)
        (by
          intro k hk
          obtain ⟨hcn, hnd, _⟩ := hkeys k hk
          obtain ⟨nm, hnm⟩ := Option.isSome_iff_exists.mp hcn
          have he := (childNameOf_eq_some_iff _ _ nm).mp hnm
          rw [hlen _ (by rw [he]; simp)]
          exact hnd)
        (by
          intro k hk
          obtain ⟨hcn, _, _⟩ := hkeys k hk
          obtain ⟨nm, hnm⟩ := Option.isSome_iff_exists.mp hcn
          exact ⟨nm, (childNameOf_eq_some_iff _ _ nm).mp hnm⟩)
      obtain ⟨l2, hsort, hperm, hpair⟩ := pySortByIntKey_ok
        (((listKeysWithPfx s3 (kb ++ "/" ++ doc ++ "/")).filter
          S3FileSystem.isImageKey).map (fun k => pyJoin bp k))
        (by
          intro p hp
          rw [List.mem_map] at hp
          obtain ⟨k, hk, he⟩ := hp
          rw [← he]
          exact (hkeys k hk).2.2)
      refine ⟨st2, l2, ?_, hperm, hpair⟩
      simp only [S3FileSystem.get_all_jpg_files, hc, hmk, hdl, hsort]
      simp

/-- C2 witness: pages `{2, 10, 1}` with mixed extensions on both backends,
returned in numeric order `[1, 2, 10]`. -/
theorem c2_witness :
    (∃ l, LocalFileSystem.get_all_jpg_files
        { dirs := [["b"], ["b", "k"], ["b", "k", "d"]],
          files := [(["b", "k", "d", "page_2.png"], .imageC "x"),
                    (["b", "k", "d", "page_10.jpg"], .imageC "y"),
                    (["b", "k", "d", "page_1.jpeg"], .imageC "z")] } "b" "k" "d" = .ok l ∧
      l.Perm ((["page_2.png", "page_10.jpg", "page_1.jpeg"].filter
        LocalFileSystem.isImageName).map (fun f => pyJoin (pyJoin3 "b" "k" "d") f)) ∧
      l.Pairwise (fun x y => sortKeyD x ≤ sortKeyD y)) ∧
    (∃ st2 l, S3FileSystem.get_all_jpg_files
        [("k/d/page_2.png", .imageC "x"), ("k/d/page_10.jpg", .imageC "y"),
         ("k/d/page_1.jpeg", .imageC "z")]
        { dirs := [["b"], ["b", "k"], ["b", "k", "d"]], files := [] } "b" "k" "d" =
        (st2, l) ∧
      l.Perm (((listKeysWithPfx
        [("k/d/page_2.png", .imageC "x"), ("k/d/page_10.jpg", .imageC "y"),
         ("k/d/page_1.jpeg", .imageC "z")] ("k" ++ "/" ++ "d" ++ "/")).filter
        S3FileSystem.isImageKey).map (fun k => pyJoin "b" k)) ∧
      l.Pairwise (fun x y => sortKeyD x ≤ sortKeyD y)) :=
  ⟨c2_get_all_jpg_files_sorted.1
     { dirs := [["b"], ["b", "k"], ["b", "k", "d"]],
       files := [(["b", "k", "d", "page_2.png"], .imageC "x"),
                 (["b", "k", "d", "page_10.jpg"], .imageC "y"),
                 (["b", "k", "d", "page_1.jpeg"], .imageC "z")] } "b" "k" "d"
     ["page_2.png", "page_10.jpg", "page_1.jpeg"] rfl (by decide),
   c2_get_all_jpg_files_sorted.2
     [("k/d/page_2.png", .imageC "x"), ("k/d/page_10.jpg", .imageC "y"),
      ("k/d/page_1.jpeg", .imageC "z")]
     { dirs := [["b"], ["b", "k"], ["b", "k", "d"]], files := [] } "b" "k" "d"
     rfl (by decide) (by decide) (by decide)⟩


/-! ### C9: `delete_kb` -/

theorem dropPfxL_self_append (q r : List String) : dropPfxL q (q ++ r) = some r :=
  (dropPfxL_eq_some_iff q (q ++ r) r).mpr rfl

theorem s3_delete_kb_eq_iter (s3 : S3State) (kb : String) (docs : List String)
    (hcov : ∀ kv ∈ s3, pyStartsWith kv.1 (kb ++ "/") = true →
      ∃ d ∈ docs, pyStartsWith kv.1 (kb ++ "/" ++ d ++ "/") = true) :
    (S3FileSystem.delete_kb s3 kb).1 = iterDeleteDirsS3 s3 kb docs := by
  rw [s3_delete_kb_fst]
  have hstep : (fun (b : S3State) (d : String) => (S3FileSystem.delete_directory b kb d).1)
      = fun b d => b.filter (fun kv => !(pyStartsWith kv.1 (kb ++ "/" ++ d ++ "/"))) := by
    funext b d
    exact s3_delete_directory_fst b kb d
  unfold iterDeleteDirsS3
  rw [hstep, foldl_filter_all]
  symm
  apply List.filter_congr
  intro kv hkv
  by_cases hs : pyStartsWith kv.1 (kb ++ "/") = true
  · obtain ⟨d, hd, hds⟩ := hcov kv hkv hs
    rw [hs]
    have : (!(pyStartsWith kv.1 (kb ++ "/" ++ d ++ "/"))) = false := by
      rw [hds]
      rfl
    rw [all_eq_false_of_mem _ docs d hd this]
    rfl
  · have hs' : pyStartsWith kv.1 (kb ++ "/") = false := by
      cases hb : pyStartsWith kv.1 (kb ++ "/")
      · rfl
      · exact absurd hb hs
    rw [hs']
    have hall : (docs.all fun d => !pyStartsWith kv.1 (kb ++ "/" ++ d ++ "/")) = true := by
      rw [List.all_eq_true]
      intro d _
      have hfalse : pyStartsWith kv.1 (kb ++ "/" ++ d ++ "/") = false := by
        cases hb : pyStartsWith kv.1 (kb ++ "/" ++ d ++ "/")
        · rfl
        · exfalso
          have h2 : pyStartsWith kv.1 ((kb ++ "/") ++ (d ++ "/")) = true := by
            rw [← String.append_assoc]
            exact hb
          rw [pyStartsWith_of_append kv.1 (kb ++ "/") (d ++ "/") h2] at hs'
          cases hs'
      rw [hfalse]
      rfl
    rw [hall]
    rfl


/-- The document-deletion loop of the local `delete_kb`, and the spec-side
iteration, both reach the state where every listed document directory and
its child files are filtered out. -/
theorem delete_docs_loop_spec (bp kb : String) (ds : List String) :
    ∀ stX : LocalState,
    (∀ n ∈ ds, (pathComp (pyJoin bp kb) ++ [n]) ∈ stX.dirs) →
    (∀ n ∈ ds, '/' ∉ n.data ∧ n ≠ "") →
    ds.Nodup →
    (∀ kv ∈ stX.files, ∀ c ∈ kv.1, '/' ∉ c.data ∧ c ≠ "") →
    (stX.files.map Prod.fst).Nodup →
    (∀ d ∈ stX.dirs, ∀ n ∈ ds,
      childNameOf (pathComp (pyJoin bp kb) ++ [n]) d = none) →
    LocalFileSystem.delete_docs_loop bp kb stX ds =
        .ok { dirs := stX.dirs.filter (fun d =>
                ds.all (fun n => !(decide (d = pathComp (pyJoin bp kb) ++ [n])))),
              files := stX.files.filter (fun kv =>
                ds.all (fun n =>
                  !(childNameOf (pathComp (pyJoin bp kb) ++ [n]) kv.1).isSome)) } ∧
      iterDeleteDocs stX bp kb ds =
        { dirs := stX.dirs.filter (fun d =>
            ds.all (fun n => !(decide (d = pathComp (pyJoin bp kb) ++ [n])))),
          files := stX.files.filter (fun kv =>
            ds.all (fun n =>
              !(childNameOf (pathComp (pyJoin bp kb) ++ [n]) kv.1).isSome)) } := by
  induction ds with
  | nil =>
    intro stX _ _ _ _ _ _
    constructor
    · simp [LocalFileSystem.delete_docs_loop, List.all_nil, List.filter_true]
    · simp [iterDeleteDocs, List.all_nil, List.filter_true]
  | cons n ds ih =>
    intro stX I1 I2 I3 I4 I5 I6
    have hD : pathComp (pyJoin3 bp kb n) = pathComp (pyJoin bp kb) ++ [n] :=
      pathComp_pyJoin_single (pyJoin bp kb) n (I2 n (by simp)).1 (I2 n (by simp)).2
    have hdd := delete_directory_flat stX bp kb n
      (by rw [hD]; exact I1 n (by simp)) I4 I5
      (by
        intro d hd
        rw [hD]
        exact I6 d hd n (by simp))
    rw [hD] at hdd
    have hnn : n ∉ ds := (List.nodup_cons.mp I3).1
    obtain ⟨hloop, hiter⟩ := ih
      { dirs := stX.dirs.filter (fun d => d ≠ pathComp (pyJoin bp kb) ++ [n]),
        files := stX.files.filter (fun kv =>
          !(childNameOf (pathComp (pyJoin bp kb) ++ [n]) kv.1).isSome) }
      (by
        intro n2 hn2
        show _ ∈ List.filter _ _
        rw [List.mem_filter]
        refine ⟨I1 n2 (by simp [hn2]), ?_⟩
        have : pathComp (pyJoin bp kb) ++ [n2] ≠ pathComp (pyJoin bp kb) ++ [n] := by
          intro hc
          have := List.append_cancel_left hc
          simp only [List.cons.injEq] at this
          exact hnn (this.1 ▸ hn2)
        simp [this])
      (fun n2 hn2 => I2 n2 (by simp [hn2]))
      (List.nodup_cons.mp I3).2
      (by
        intro kv hkv
        rw [List.mem_filter] at hkv
        exact I4 kv hkv.1)
      (by
        refine List.Nodup.sublist ?_ I5
        exact List.Sublist.map _ (List.filter_sublist _))
      (by
        intro d hd n2 hn2
        rw [List.mem_filter] at hd
        exact I6 d hd.1 n2 (by simp [hn2]))
    have hdirs_eq : (stX.dirs.filter
          (fun d => d ≠ pathComp (pyJoin bp kb) ++ [n])).filter
        (fun d => ds.all (fun n2 => !(decide (d = pathComp (pyJoin bp kb) ++ [n2])))) =
        stX.dirs.filter (fun d =>
          (n :: ds).all (fun n2 => !(decide (d = pathComp (pyJoin bp kb) ++ [n2])))) := by
      rw [List.filter_filter]
      have hfun : ∀ d : List String,
          ((ds.all fun n2 => !decide (d = pathComp (pyJoin bp kb) ++ [n2])) &&
            decide (d ≠ pathComp (pyJoin bp kb) ++ [n]))
          = ((n :: ds).all fun n2 => !decide (d = pathComp (pyJoin bp kb) ++ [n2])) := by
        intro d
        simp [List.all_cons, decide_not, Bool.and_comm]
      simp only [hfun]
    have hfiles_eq : (stX.files.filter
          (fun kv => !(childNameOf (pathComp (pyJoin bp kb) ++ [n]) kv.1).isSome)).filter
        (fun kv => ds.all (fun n2 =>
          !(childNameOf (pathComp (pyJoin bp kb) ++ [n2]) kv.1).isSome)) =
        stX.files.filter (fun kv => (n :: ds).all (fun n2 =>
          !(childNameOf (pathComp (pyJoin bp kb) ++ [n2]) kv.1).isSome)) := by
      rw [List.filter_filter]
      have hfun : ∀ kv : List String × FileContent,
          ((ds.all fun n2 =>
            !(childNameOf (pathComp (pyJoin bp kb) ++ [n2]) kv.1).isSome) &&
            !(childNameOf (pathComp (pyJoin bp kb) ++ [n]) kv.1).isSome)
          = ((n :: ds).all fun n2 =>
            !(childNameOf (pathComp (pyJoin bp kb) ++ [n2]) kv.1).isSome) := by
        intro kv
        simp [List.all_cons, Bool.and_comm]
      simp only [hfun]
    constructor
    · simp only [LocalFileSystem.delete_docs_loop, hdd, hloop]
      rw [hdirs_eq, hfiles_eq]
    · simp only [iterDeleteDocs, List.foldl_cons, hdd]
      have : iterDeleteDocs
          { dirs := stX.dirs.filter (fun d => d ≠ pathComp (pyJoin bp kb) ++ [n]),
            files := stX.files.filter (fun kv =>
              !(childNameOf (pathComp (pyJoin bp kb) ++ [n]) kv.1).isSome) } bp kb ds =
          _ := hiter
      rw [show (List.foldl (fun s d =>
          match LocalFileSystem.delete_directory s bp kb d with
          | .ok r => r.1
          | .error _ => s)
          { dirs := stX.dirs.filter (fun d => d ≠ pathComp (pyJoin bp kb) ++ [n]),
            files := stX.files.filter (fun kv =>
              !(childNameOf (pathComp (pyJoin bp kb) ++ [n]) kv.1).isSome) } ds) =
          iterDeleteDocs
          { dirs := stX.dirs.filter (fun d => d ≠ pathComp (pyJoin bp kb) ++ [n]),
            files := stX.files.filter (fun kv =>
              !(childNameOf (pathComp (pyJoin bp kb) ++ [n]) kv.1).isSome) } bp kb ds
          from rfl]
      rw [hiter, hdirs_eq, hfiles_eq]


/-- The local `delete_kb` on a well-formed knowledge-base tree (the kb
directory exists; every stored path under it is either a document directory
`{kb}/{doc}` or a document file `{kb}/{doc}/{asset}`; paths are
duplicate-free, slash-free and no path is both a file and a directory):
it reaches exactly the state of iterating `delete_directory` over the
listed documents, minus the knowledge-base directory itself. -/
theorem delete_kb_local_spec (st : LocalState) (bp kb : String)
    (Hkb : pathComp (pyJoin bp kb) ∈ st.dirs)
    (Hwff : ∀ kv ∈ st.files, ∀ c ∈ kv.1, '/' ∉ c.data ∧ c ≠ "")
    (Hwfd : ∀ d ∈ st.dirs, ∀ c ∈ d, '/' ∉ c.data ∧ c ≠ "")
    (Hnodupf : (st.files.map Prod.fst).Nodup)
    (Hnodupd : st.dirs.Nodup)
    (Hdisj : ∀ kv ∈ st.files, kv.1 ∉ st.dirs)
    (Hdepth : ∀ d ∈ st.dirs, dropPfxL (pathComp (pyJoin bp kb)) d = none ∨
      d = pathComp (pyJoin bp kb) ∨
      (childNameOf (pathComp (pyJoin bp kb)) d).isSome = true)
    (Hfile : ∀ kv ∈ st.files,
      (dropPfxL (pathComp (pyJoin bp kb)) kv.1).map List.length = none ∨
      (dropPfxL (pathComp (pyJoin bp kb)) kv.1).map List.length = some 2) :
    LocalFileSystem.delete_kb st bp kb =
      .ok { dirs := (iterDeleteDocs st bp kb
              (childNames st (pathComp (pyJoin bp kb)))).dirs.filter
                (fun d => d ≠ pathComp (pyJoin bp kb)),
            files := (iterDeleteDocs st bp kb
              (childNames st (pathComp (pyJoin bp kb)))).files } := by
  have hnofilechild : ∀ kv ∈ st.files,
      childNameOf (pathComp (pyJoin bp kb)) kv.1 = none := by
    intro kv hkv
    cases hc : childNameOf (pathComp (pyJoin bp kb)) kv.1 with
    | none => rfl
    | some n0 =>
      exfalso
      have he := (childNameOf_eq_some_iff _ _ n0).mp hc
      have hdp : dropPfxL (pathComp (pyJoin bp kb)) kv.1 = some [n0] := by
        rw [he]
        exact dropPfxL_self_append _ _
      rcases Hfile kv hkv with h | h <;> rw [hdp] at h <;> simp at h
  have hdocs_dirs : ∀ n ∈ childNames st (pathComp (pyJoin bp kb)),
      (pathComp (pyJoin bp kb) ++ [n]) ∈ st.dirs := by
    intro n hn
    unfold childNames at hn
    rw [List.mem_filterMap] at hn
    obtain ⟨e, he, hce⟩ := hn
    rw [List.mem_append] at he
    rcases he with he | he
    · exfalso
      rw [List.mem_map] at he
      obtain ⟨kv, hkv, hekv⟩ := he
      rw [← hekv] at hce
      rw [hnofilechild kv hkv] at hce
      cases hce
    · have := (childNameOf_eq_some_iff _ _ n).mp hce
      rw [← this]
      exact he
  have hdocs_wf : ∀ n ∈ childNames st (pathComp (pyJoin bp kb)),
      '/' ∉ n.data ∧ n ≠ "" := by
    intro n hn
    exact Hwfd _ (hdocs_dirs n hn) n (by simp)
  have hdocs_nodup : (childNames st (pathComp (pyJoin bp kb))).Nodup := by
    unfold childNames
    refine List.Nodup.filterMap ?_ ?_
    · intro a a2 b hb hb2
      rw [Option.mem_def, childNameOf_eq_some_iff] at hb hb2
      rw [hb, hb2]
    · refine List.Nodup.append Hnodupf Hnodupd ?_
      rw [List.disjoint_left]
      intro a ha hd
      rw [List.mem_map] at ha
      obtain ⟨kv, hkv, he⟩ := ha
      exact Hdisj kv hkv (he ▸ hd)
  have hflatdocs : ∀ d ∈ st.dirs, ∀ n ∈ childNames st (pathComp (pyJoin bp kb)),
      childNameOf (pathComp (pyJoin bp kb) ++ [n]) d = none := by
    intro d hd n _
    cases hc : childNameOf (pathComp (pyJoin bp kb) ++ [n]) d with
    | none => rfl
    | some m =>
      exfalso
      have he := (childNameOf_eq_some_iff _ _ m).mp hc
      rw [List.append_assoc] at he
      have hdp : dropPfxL (pathComp (pyJoin bp kb)) d = some [n, m] := by
        rw [he]
        exact dropPfxL_self_append _ _
      rcases Hdepth d hd with h | h | h
      · rw [hdp] at h
        cases h
      · rw [h] at hdp
        have := (dropPfxL_eq_some_iff _ _ _).mp hdp
        have hlen := congrArg List.length this
        simp at hlen
      · unfold childNameOf at h
        rw [hdp] at h
        simp at h
  obtain ⟨hloop, hiter⟩ := delete_docs_loop_spec bp kb
    (childNames st (pathComp (pyJoin bp kb))) st
    hdocs_dirs hdocs_wf hdocs_nodup Hwff Hnodupf hflatdocs
  have hKc0 : pathComp (pyJoin3 bp kb "") = pathComp (pyJoin bp kb) :=
    pathComp_pyJoin_empty (pyJoin bp kb)
  have hKcnotdoc : ∀ n : String,
      pathComp (pyJoin bp kb) ≠ pathComp (pyJoin bp kb) ++ [n] := by
    intro n hc
    have := List.self_eq_append_right.mp hc
    cases this
  have hKcall : ((childNames st (pathComp (pyJoin bp kb))).all
      (fun n => !(decide (pathComp (pyJoin bp kb) =
        pathComp (pyJoin bp kb) ++ [n])))) = true := by
    rw [List.all_eq_true]
    intro n _
    simp [hKcnotdoc n]
  have hfin := delete_directory_flat
    { dirs := st.dirs.filter (fun d =>
        (childNames st (pathComp (pyJoin bp kb))).all
          (fun n => !(decide (d = pathComp (pyJoin bp kb) ++ [n])))),
      files := st.files.filter (fun kv =>
        (childNames st (pathComp (pyJoin bp kb))).all
          (fun n => !(childNameOf (pathComp (pyJoin bp kb) ++ [n]) kv.1).isSome)) }
    bp kb ""
    (by
      rw [hKc0]
      show _ ∈ List.filter _ _
      rw [List.mem_filter]
      exact ⟨Hkb, hKcall⟩)
    (by
      intro kv hkv
      rw [List.mem_filter] at hkv
      exact Hwff kv hkv.1)
    (by
      refine List.Nodup.sublist ?_ Hnodupf
      exact List.Sublist.map _ (List.filter_sublist _))
    (by
      intro d hd
      rw [hKc0]
      rw [List.mem_filter] at hd
      cases hc : childNameOf (pathComp (pyJoin bp kb)) d with
      | none => rfl
      | some n0 =>
        exfalso
        have he := (childNameOf_eq_some_iff _ _ n0).mp hc
        have hn0 : n0 ∈ childNames st (pathComp (pyJoin bp kb)) := by
          unfold childNames
          rw [List.mem_filterMap]
          exact ⟨d, List.mem_append_right _ hd.1, hc⟩
        have := List.all_eq_true.mp hd.2 n0 hn0
        rw [he] at this
        simp at this)
  rw [hKc0] at hfin
  have hfiles_id : (st.files.filter (fun kv =>
      (childNames st (pathComp (pyJoin bp kb))).all
        (fun n => !(childNameOf (pathComp (pyJoin bp kb) ++ [n]) kv.1).isSome))).filter
      (fun kv => !(childNameOf (pathComp (pyJoin bp kb)) kv.1).isSome) =
      st.files.filter (fun kv =>
        (childNames st (pathComp (pyJoin bp kb))).all
          (fun n => !(childNameOf (pathComp (pyJoin bp kb) ++ [n]) kv.1).isSome)) := by
    apply List.filter_eq_self.mpr
    intro kv hkv
    rw [List.mem_filter] at hkv
    rw [hnofilechild kv hkv.1]
    rfl
  rw [hfiles_id] at hfin
  have hex : existsP st (pyJoin bp kb) = true := by
    unfold existsP
    rw [(isDirP_iff st _).mpr Hkb]
    rfl
  have hls : listdirE st (pyJoin bp kb) =
      .ok (childNames st (pathComp (pyJoin bp kb))) := by
    simp only [listdirE]
    rw [if_pos ((isDirP_iff st _).mpr Hkb)]
  simp only [LocalFileSystem.delete_kb, hex, if_true, hls, hloop, hfin]
  rw [hiter]


/-- C9 counterexample: the claim says the final observable state of
`deleteKnowledgeBase` is identical to iterating `deleteDirectory` over all
contained documents, but the local `delete_kb` additionally removes the
knowledge-base directory itself (via `delete_directory(kb_id, "")`): on a
knowledge base with no documents, `delete_kb` removes `b/k` while the
iteration leaves the state unchanged. -/
theorem c9_counterexample :
    LocalFileSystem.delete_kb { dirs := [["b"], ["b", "k"]], files := [] } "b" "k" =
        .ok { dirs := [["b"]], files := [] } ∧
    iterDeleteDocs { dirs := [["b"], ["b", "k"]], files := [] } "b" "k"
        (childNames { dirs := [["b"], ["b", "k"]], files := [] }
          (pathComp (pyJoin "b" "k"))) =
        { dirs := [["b"], ["b", "k"]], files := [] } ∧
    ({ dirs := [["b"]], files := [] } : LocalState) ≠
        { dirs := [["b"], ["b", "k"]], files := [] } :=
  ⟨rfl, rfl, by
    intro h
    have hd := congrArg LocalState.dirs h
    simp at hd⟩

/-- C9 (amended): `deleteKnowledgeBase` removes every asset of every
document under the knowledge base.  On the S3 backend the final state is
exactly the state reached by iterating `deleteDirectory` over the contained
documents, provided every stored key under `{kb_id}/` lies under some
document prefix `{kb_id}/{doc}/`.  On the local backend (for a well-formed
tree of document directories and their files) the final state is the
iteration state with the knowledge-base directory itself additionally
removed. -/
theorem c9_delete_kb_amended :
    (∀ (st : LocalState) (bp kb : String),
      pathComp (pyJoin bp kb) ∈ st.dirs →
      (∀ kv ∈ st.files, ∀ c ∈ kv.1, '/' ∉ c.data ∧ c ≠ "") →
      (∀ d ∈ st.dirs, ∀ c ∈ d, '/' ∉ c.data ∧ c ≠ "") →
      (st.files.map Prod.fst).Nodup →
      st.dirs.Nodup →
      (∀ kv ∈ st.files, kv.1 ∉ st.dirs) →
      (∀ d ∈ st.dirs, dropPfxL (pathComp (pyJoin bp kb)) d = none ∨
        d = pathComp (pyJoin bp kb) ∨
        (childNameOf (pathComp (pyJoin bp kb)) d).isSome = true) →
      (∀ kv ∈ st.files,
        (dropPfxL (pathComp (pyJoin bp kb)) kv.1).map List.length = none ∨
        (dropPfxL (pathComp (pyJoin bp kb)) kv.1).map List.length = some 2) →
      LocalFileSystem.delete_kb st bp kb =
        .ok { dirs := (iterDeleteDocs st bp kb
                (childNames st (pathComp (pyJoin bp kb)))).dirs.filter
                  (fun d => d ≠ pathComp (pyJoin bp kb)),
              files := (iterDeleteDocs st bp kb
                (childNames st (pathComp (pyJoin bp kb)))).files }) ∧
    (∀ (s3 : S3State) (kb : String) (docs : List String),
      (∀ kv ∈ s3, pyStartsWith kv.1 (kb ++ "/") = true →
        ∃ d ∈ docs, pyStartsWith kv.1 (kb ++ "/" ++ d ++ "/") = true) →
      (S3FileSystem.delete_kb s3 kb).1 = iterDeleteDirsS3 s3 kb docs) :=
  ⟨delete_kb_local_spec, s3_delete_kb_eq_iter⟩

/-- C9 witness: a knowledge base with two documents (one holding a page
file) on the local backend, and a bucket whose keys under `k/` all lie
under `k/d/` on the S3 backend. -/
theorem c9_witness :
    LocalFileSystem.delete_kb
        { dirs := [["b"], ["b", "k"], ["b", "k", "d1"], ["b", "k", "d2"]],
          files := [(["b", "k", "d1", "page_1.jpg"], .imageC "x")] } "b" "k" =
      .ok { dirs := (iterDeleteDocs
              { dirs := [["b"], ["b", "k"], ["b", "k", "d1"], ["b", "k", "d2"]],
                files := [(["b", "k", "d1", "page_1.jpg"], .imageC "x")] } "b" "k"
              (childNames
                { dirs := [["b"], ["b", "k"], ["b", "k", "d1"], ["b", "k", "d2"]],
                  files := [(["b", "k", "d1", "page_1.jpg"], .imageC "x")] }
                (pathComp (pyJoin "b" "k")))).dirs.filter
                (fun d => d ≠ pathComp (pyJoin "b" "k")),
            files := (iterDeleteDocs
              { dirs := [["b"], ["b", "k"], ["b", "k", "d1"], ["b", "k", "d2"]],
                files := [(["b", "k", "d1", "page_1.jpg"], .imageC "x")] } "b" "k"
              (childNames
                { dirs := [["b"], ["b", "k"], ["b", "k", "d1"], ["b", "k", "d2"]],
                  files := [(["b", "k", "d1", "page_1.jpg"], .imageC "x")] }
                (pathComp (pyJoin "b" "k")))).files } ∧
    (S3FileSystem.delete_kb
        [("k/d/a.json", .jsonC .nullV), ("x/y.json", .jsonC .nullV)] "k").1 =
      iterDeleteDirsS3
        [("k/d/a.json", .jsonC .nullV), ("x/y.json", .jsonC .nullV)] "k" ["d"] :=
  ⟨c9_delete_kb_amended.1
     { dirs := [["b"], ["b", "k"], ["b", "k", "d1"], ["b", "k", "d2"]],
       files := [(["b", "k", "d1", "page_1.jpg"], .imageC "x")] } "b" "k"
     (by decide) (by decide) (by decide) (by decide) (by decide) (by decide)
     (by decide) (by decide),
   c9_delete_kb_amended.2
     [("k/d/a.json", .jsonC .nullV), ("x/y.json", .jsonC .nullV)] "k" ["d"]
     (by decide)⟩

end DsragFS
